import Mathlib

/-!
Looper: the SD audio recorder (`SDAudioRecorder.cpp`)

A shallow embedding of `SD_AUDIO_RECORDER`, the controller of the looper: its mode
machine, the playback step, the record step, the block hand-off used for overdubbing
and the exchange of the play and record files.

Conventions of the embedding

* The object becomes the structure `SD_AUDIO_RECORDER`; every member function is a
  function from the state before the call to the state after it (paired with the
  returned value when the C++ function returns one).
* `uint32_t` members are `Nat`, reduced with `u32` where the code does arithmetic on
  them; `int16_t` samples are `Int`, reduced with `wrap16` where the code stores the
  result of an addition back into an `int16_t`.
* The collaborators the class drives (the SD card, the `File` handles, the audio block
  pool and the input and output of `AudioStream`) are part of the state, with the
  behaviour of their interfaces: a card is a table of named byte strings, a handle is
  a name and a position, the pool is the list of free blocks.
* `Serial` output, the masking of interrupts and the SPI enable and disable calls do
  not alter any of the modelled members and are left out. `ASSERT_MSG` comes from
  `Util.h`, which is not among the sources; it is taken as a diagnostic that reports
  and lets execution continue, so it does not appear in the state functions.
-/

set_option autoImplicit false
set_option maxRecDepth 100000

namespace Looper

/-! ## Constants and machine integers -/

/-- First of the two recording slots, `RECORDING_FILENAME1`. -/
def RECORDING_FILENAME1 : String := "RECORD1.RAW"

/-- Second of the two recording slots, `RECORDING_FILENAME2`. -/
def RECORDING_FILENAME2 : String := "RECORD2.RAW"

/-- Modelled from the spec: the number of samples of a block buffer ("fixed-size array of
signed 16-bit samples"). The constant is defined in the audio library header, which is
not among the sources; 128 is the value under which a block is the 256 bytes that
`update_recording` and `stop_recording` copy per queue entry. -/
def AUDIO_BLOCK_SAMPLES : Nat := 128

/-- Reduction of a natural number to `uint32_t`. -/
def u32 (n : Nat) : Nat := n % 4294967296

/-- Reduction of an integer to `int16_t` (two's complement): the value stored when the
result of an `int` computation is assigned to an `int16_t`. -/
def wrap16 (x : Int) : Int := (x + 32768) % 65536 - 32768

/-- Largest `int16_t`, `std::numeric_limits<int16_t>::max()`. -/
def INT16_MAX : Int := 32767

/-- Smallest `int16_t`, `std::numeric_limits<int16_t>::min()`. -/
def INT16_MIN : Int := -32768

/-- Low byte of a sample in memory (little endian). -/
def sample_lo (v : Int) : Nat := (v % 256).toNat

/-- High byte of a sample in memory (little endian). -/
def sample_hi (v : Int) : Nat := ((v / 256) % 256).toNat

/-- The sample held by two bytes of memory. -/
def sample_of_bytes (lo hi : Nat) : Int := wrap16 ((lo % 256 : Nat) + 256 * (hi % 256 : Nat))

/-- The conversion of a non-negative `float` product to `uint32_t`: the fractional part
is discarded. The `float` itself is idealised as a rational number. -/
def float_to_uint32 (x : ℚ) : Nat := u32 (Rat.floor x).toNat

/-! ## Audio blocks, pool, SD card -/

/-- The operating modes, `SD_AUDIO_RECORDER::MODE`. -/
inductive MODE where
  | STOP
  | PLAY
  | RECORD_INITIAL
  | RECORD_PLAY
  | RECORD_OVERDUB
deriving DecidableEq, Repr

/-- An audio block of the pool: its slot in the pool (its identity) and its samples. -/
structure audio_block_t where
  memory_pool_index : Nat
  data : List Int
deriving DecidableEq, Repr

/-- The bytes of a block as `memcpy` and `write` see them. -/
def block_bytes (b : audio_block_t) : List Nat :=
  b.data.flatMap (fun v => [sample_lo v, sample_hi v])

/-- Pool `allocate()`: the first free block, with whatever samples it last held, or
nothing when the pool is exhausted. -/
def allocate (pool : List audio_block_t) : Option (audio_block_t × List audio_block_t) :=
  match pool with
  | [] => none
  | b :: rest => some (b, rest)

/-- Pool `release(block)`: the block is free again. -/
def release (b : audio_block_t) (pool : List audio_block_t) : List audio_block_t :=
  b :: pool

/-- A handle of the SD library: the file it refers to and the position in it. A closed
or failed handle is `none` in the recorder. -/
structure File where
  name : String
  pos : Nat
deriving DecidableEq, Repr

/-- The SD card: whether it answers at all, and the named byte streams it stores. -/
structure SDClass where
  card_ok : Bool
  files : List (String × List Nat)
deriving DecidableEq, Repr

/-- Content of a named stream, empty when there is none. -/
def SD_content (sd : SDClass) (name : String) : List Nat :=
  (sd.files.lookup name).getD []

/-- Library call `SD.exists(name)`. -/
def SD_exists (sd : SDClass) (name : String) : Bool :=
  sd.card_ok && (sd.files.lookup name).isSome

/-- Library call `SD.remove(name)`. -/
def SD_remove (sd : SDClass) (name : String) : SDClass :=
  if sd.card_ok then { sd with files := sd.files.filter (fun e => e.1 != name) } else sd

/-- Library call `SD.open(name)`, for reading: fails when the file is not there. -/
def SD_open (sd : SDClass) (name : String) : Option File :=
  if SD_exists sd name then some { name := name, pos := 0 } else none

/-- Library call `SD.open(name, FILE_WRITE)`: creates the file when it is missing and
positions at its end; fails when the card does not answer. -/
def SD_open_write (sd : SDClass) (name : String) : SDClass × Option File :=
  if sd.card_ok then
    match sd.files.lookup name with
    | some bytes => (sd, some { name := name, pos := bytes.length })
    | none => ({ sd with files := (name, []) :: sd.files }, some { name := name, pos := 0 })
  else (sd, none)

/-- Handle call `size()`. -/
def File_size (sd : SDClass) (f : Option File) : Nat :=
  match f with
  | none => 0
  | some h => (SD_content sd h.name).length

/-- Handle call `available()`: the bytes between the position and the end. -/
def File_available (sd : SDClass) (f : Option File) : Nat :=
  match f with
  | none => 0
  | some h => (SD_content sd h.name).length - h.pos

/-- Handle call `read(buf, nbyte)`: the bytes delivered (at most `nbyte`, fewer at the
end of the stream) and the advanced handle. -/
def File_read (sd : SDClass) (f : Option File) (nbyte : Nat) : List Nat × Option File :=
  match f with
  | none => ([], none)
  | some h =>
    let bytes := ((SD_content sd h.name).drop h.pos).take nbyte
    (bytes, some { h with pos := h.pos + bytes.length })

/-- Handle call `seek(pos)`: succeeds for a position inside the stream or at its end;
the moved handle on success. -/
def File_seek (sd : SDClass) (f : Option File) (pos : Nat) : Option File :=
  match f with
  | none => none
  | some h => if pos ≤ (SD_content sd h.name).length then some { h with pos := pos } else none

/-- Appends the bytes to the entry of the table when it is the stream named. -/
def append_to (target : String) (bytes : List Nat) (e : String × List Nat) : String × List Nat :=
  if e.1 == target then (e.1, e.2 ++ bytes) else e

/-- Handle call `write(buf, n)` on a handle opened with `FILE_WRITE`: the bytes are
appended to the stream. Nothing happens on a closed handle. The position of a write
handle is not tracked; the recorder never reads it. -/
def File_write (sd : SDClass) (f : Option File) (bytes : List Nat) : SDClass :=
  match f with
  | none => sd
  | some h =>
    { sd with files := sd.files.map (append_to h.name bytes) }

/-- Modelled from the spec: the capture queue `m_sd_record_queue`, whose class is
declared outside the sources. It holds the captured blocks oldest first
(available-block-count, peek-oldest-block, release-oldest-block) and takes blocks in
only between `start()` and `stop()`. -/
structure SD_RECORD_QUEUE where
  enabled : Bool
  queue : List audio_block_t
deriving DecidableEq, Repr

/-- The recorder together with the collaborators it drives. -/
structure SD_AUDIO_RECORDER where
  m_just_played_block : Option audio_block_t
  m_mode : MODE
  m_play_back_filename : String
  m_record_filename : String
  m_recorded_audio_file : Option File
  m_play_back_audio_file : Option File
  m_play_back_file_size : Nat
  m_play_back_file_offset : Nat
  m_jump_position : Nat
  m_jump_pending : Bool
  m_looping : Bool
  m_sd_record_queue : SD_RECORD_QUEUE
  /-- the SD card -/
  SD : SDClass
  /-- the free blocks of the audio pool -/
  pool : List audio_block_t
  /-- the input slot of the stream (`inputQueue[0]`), filled by the upstream object -/
  inputQueue : Option audio_block_t
  /-- the blocks handed to `transmit`, oldest first -/
  transmitted : List audio_block_t
deriving DecidableEq, Repr

/-- The constructor `SD_AUDIO_RECORDER::SD_AUDIO_RECORDER()`, over a card, a pool. -/
def SD_AUDIO_RECORDER.init (sd : SDClass) (pool : List audio_block_t) : SD_AUDIO_RECORDER :=
  { m_just_played_block := none
    m_mode := MODE.STOP
    m_play_back_filename := RECORDING_FILENAME1
    m_record_filename := RECORDING_FILENAME1
    m_recorded_audio_file := none
    m_play_back_audio_file := none
    m_play_back_file_size := 0
    m_play_back_file_offset := 0
    m_jump_position := 0
    m_jump_pending := false
    m_looping := false
    m_sd_record_queue := { enabled := false, queue := [] }
    SD := sd
    pool := pool
    inputQueue := none
    transmitted := [] }

/-! ## The capture queue -/

/-- Modelled from the spec: `m_sd_record_queue.available()`, the number of queued
entries (available-block-count). -/
def SD_RECORD_QUEUE.available (q : SD_RECORD_QUEUE) : Nat := q.queue.length

/-- Modelled from the spec: `m_sd_record_queue.read_buffer()`, the oldest queued entry
(peek-oldest-block), which stays queued until it is released. -/
def SD_RECORD_QUEUE.read_buffer (q : SD_RECORD_QUEUE) : Option audio_block_t := q.queue.head?

/-- Modelled from the spec: `m_sd_record_queue.release_buffer()`, which drops the oldest
queued entry and gives its block back to the pool (release-oldest-block). -/
def release_buffer (q : SD_RECORD_QUEUE) (pool : List audio_block_t) :
    SD_RECORD_QUEUE × List audio_block_t :=
  match q.queue with
  | [] => (q, pool)
  | b :: rest => ({ q with queue := rest }, release b pool)

/-- Modelled from the spec: `m_sd_record_queue.stop()`, after which no block is taken in;
the entries already queued stay. -/
def SD_RECORD_QUEUE.stop (q : SD_RECORD_QUEUE) : SD_RECORD_QUEUE := { q with enabled := false }

/-! ## The member functions of `SD_AUDIO_RECORDER` -/

/-- Modelled from the spec: `is_recording()`, declared in the header outside the sources:
a recording mode is active (`RECORD_INITIAL`, `RECORD_PLAY` or `RECORD_OVERDUB`). These
are the modes in which `stop_recording` has a record file to close and, for the last
two, in which `aquire_block_func` expects the block `update_playing` holds back. -/
def is_recording (s : SD_AUDIO_RECORDER) : Bool :=
  s.m_mode = MODE.RECORD_INITIAL || s.m_mode = MODE.RECORD_PLAY || s.m_mode = MODE.RECORD_OVERDUB

/-- Modelled from the spec: `m_sd_record_queue.start()`, which empties the queue (the
blocks go back to the pool) and lets it take blocks in from then on. -/
def queue_start (s : SD_AUDIO_RECORDER) : SD_AUDIO_RECORDER :=
  { s with
    m_sd_record_queue := { enabled := true, queue := [] }
    pool := s.m_sd_record_queue.queue.foldl (fun p b => release b p) s.pool }

/-- Member function `mode()`. -/
def mode (s : SD_AUDIO_RECORDER) : MODE := s.m_mode

/-- Member function `switch_play_record_buffers()`: the two filenames are exchanged. -/
def switch_play_record_buffers (s : SD_AUDIO_RECORDER) : SD_AUDIO_RECORDER :=
  { s with
    m_play_back_filename := s.m_record_filename
    m_record_filename := s.m_play_back_filename }

/-- Member function `stop_playing()`. -/
def stop_playing (s : SD_AUDIO_RECORDER) : SD_AUDIO_RECORDER :=
  if s.m_mode = MODE.PLAY ∨ s.m_mode = MODE.RECORD_PLAY ∨ s.m_mode = MODE.RECORD_OVERDUB then
    { s with m_play_back_audio_file := none }
  else s

/-- Member function `start_playing()`: the returned flag tells whether the playback file
could be opened. -/
def start_playing (s : SD_AUDIO_RECORDER) : Bool × SD_AUDIO_RECORDER :=
  let s1 := stop_playing s
  let s2 := { s1 with m_play_back_audio_file := SD_open s1.SD s1.m_play_back_filename }
  if s2.m_play_back_audio_file.isSome = false then
    (false, s2)
  else
    (true, { s2 with
      m_play_back_file_size := u32 (File_size s2.SD s2.m_play_back_audio_file)
      m_play_back_file_offset := 0 })

/-- Member function `start_recording()`. -/
def start_recording (s : SD_AUDIO_RECORDER) : SD_AUDIO_RECORDER :=
  let sd1 := if SD_exists s.SD s.m_record_filename then SD_remove s.SD s.m_record_filename else s.SD
  let opened := SD_open_write sd1 s.m_record_filename
  let s1 := { s with SD := opened.1, m_recorded_audio_file := opened.2 }
  if s1.m_recorded_audio_file.isSome then queue_start s1 else s1

/-- The 256 bytes that `memcpy` and `write` take from the pointer `read_buffer()` returns;
nothing when the queue is empty. -/
def read_buffer_bytes (q : SD_RECORD_QUEUE) : List Nat :=
  match q.read_buffer with
  | none => []
  | some b => (block_bytes b).take 256

/-- The loop `while( m_sd_record_queue.available() > 0 )` of `stop_recording()`: each
round writes the oldest entry to the record file and releases it. The first argument
bounds the number of rounds; `stop_recording` passes the number of queued entries. -/
def stop_recording_loop : Nat → SD_AUDIO_RECORDER → SD_AUDIO_RECORDER
  | 0, s => s
  | fuel + 1, s =>
    if s.m_sd_record_queue.available > 0 then
      let sd := File_write s.SD s.m_recorded_audio_file (read_buffer_bytes s.m_sd_record_queue)
      let r := release_buffer s.m_sd_record_queue s.pool
      stop_recording_loop fuel { s with SD := sd, m_sd_record_queue := r.1, pool := r.2 }
    else s

/-- Member function `stop_recording()`. -/
def stop_recording (s : SD_AUDIO_RECORDER) : SD_AUDIO_RECORDER :=
  let s1 := { s with m_sd_record_queue := s.m_sd_record_queue.stop }
  if is_recording s1 then
    let s2 := stop_recording_loop s1.m_sd_record_queue.available s1
    { s2 with m_recorded_audio_file := none }
  else s1

/-- Member function `stop_current_mode( reset_play_file )`. -/
def stop_current_mode (s : SD_AUDIO_RECORDER) (reset_play_file : Bool) : SD_AUDIO_RECORDER :=
  let s1 :=
    match s.m_mode with
    | MODE.PLAY => stop_playing s
    | MODE.RECORD_INITIAL => stop_recording s
    | MODE.RECORD_PLAY => stop_recording (stop_playing s)
    | MODE.RECORD_OVERDUB => stop_recording (stop_playing s)
    | MODE.STOP => s
  if reset_play_file then
    { s1 with m_play_back_filename := RECORDING_FILENAME1, m_record_filename := RECORDING_FILENAME1 }
  else s1

/-- Member function `play_file( filename, loop )`. -/
def play_file (s : SD_AUDIO_RECORDER) (filename : String) (loop : Bool) : SD_AUDIO_RECORDER :=
  let s1 := { s with m_play_back_filename := filename, m_looping := loop }
  let s2 := if s1.m_mode ≠ MODE.PLAY then stop_current_mode s1 false else s1
  let r := start_playing s2
  if r.1 then { r.2 with m_mode := MODE.PLAY } else { r.2 with m_mode := MODE.STOP }

/-- Member function `play()`. -/
def play (s : SD_AUDIO_RECORDER) : SD_AUDIO_RECORDER :=
  play_file s s.m_play_back_filename true

/-- Member function `stop()`. -/
def stop (s : SD_AUDIO_RECORDER) : SD_AUDIO_RECORDER :=
  { stop_current_mode s true with m_mode := MODE.STOP }

/-- Member function `start_record()`. -/
def start_record (s : SD_AUDIO_RECORDER) : SD_AUDIO_RECORDER :=
  match s.m_mode with
  | MODE.STOP =>
    let s1 := { s with
      m_play_back_filename := RECORDING_FILENAME1
      m_record_filename := RECORDING_FILENAME2 }
    { start_recording s1 with m_mode := MODE.RECORD_INITIAL }
  | MODE.RECORD_PLAY => { s with m_mode := MODE.RECORD_OVERDUB }
  | _ => s

/-- Member function `stop_record()`. -/
def stop_record (s : SD_AUDIO_RECORDER) : SD_AUDIO_RECORDER :=
  match s.m_mode with
  | MODE.RECORD_INITIAL =>
    let s1 := stop_recording s
    let s2 := switch_play_record_buffers s1
    let s3 := (start_playing s2).2
    let s4 := start_recording s3
    { s4 with m_mode := MODE.RECORD_PLAY }
  | MODE.RECORD_OVERDUB => { s with m_mode := MODE.RECORD_PLAY }
  | _ => s

/-- Member function `set_read_position( t )`. -/
def set_read_position (s : SD_AUDIO_RECORDER) (t : ℚ) : SD_AUDIO_RECORDER :=
  if s.m_mode = MODE.PLAY then
    let block_size : Nat := 2
    let file_pos : Nat := float_to_uint32 ((s.m_play_back_file_size : ℚ) * t)
    let block_rem : Nat := file_pos % block_size
    { s with m_jump_pending := true, m_jump_position := u32 (file_pos + block_rem) }
  else s

/-- The mixing loop of `aquire_block_func()`,
`for( i = 0; i < AUDIO_BLOCK_SAMPLES; ++i ) in_block->data[i] += m_just_played_block->data[i];`
on the samples of the incoming block. -/
def mix_blocks (in_data played : List Int) : List Int :=
  (List.range AUDIO_BLOCK_SAMPLES).foldl
    (fun d i => d.set i (wrap16 (d.getD i 0 + played.getD i 0))) in_data

/-- The condition asserted after each addition of the mixing loop,
`data[i] < max && data[i] > min`, under the message "CLIPPING". -/
def clipping_assert (v : Int) : Bool := decide (v < INT16_MAX) && decide (v > INT16_MIN)

/-- Stream call `receiveWritable()` / `receiveReadOnly()`: the block waiting in the input
slot, which is taken out of the slot. -/
def receive (s : SD_AUDIO_RECORDER) : Option audio_block_t × SD_AUDIO_RECORDER :=
  (s.inputQueue, { s with inputQueue := none })

/-- Member function `aquire_block_func()`: the block handed to the capture queue. -/
def aquire_block_func (s : SD_AUDIO_RECORDER) : Option audio_block_t × SD_AUDIO_RECORDER :=
  if s.m_mode = MODE.RECORD_PLAY then
    let play_block := s.m_just_played_block
    (play_block, { s with m_just_played_block := none })
  else if s.m_mode = MODE.RECORD_OVERDUB then
    let r := receive s
    let s1 := r.2
    match r.1, s1.m_just_played_block with
    | some in_block, some played =>
      let mixed : audio_block_t := { in_block with data := mix_blocks in_block.data played.data }
      (some mixed, { s1 with pool := release played s1.pool, m_just_played_block := none })
    | _, play_block =>
      (play_block, { s1 with m_just_played_block := none })
  else
    receive s

/-- Member function `release_block_func( block )`. -/
def release_block_func (s : SD_AUDIO_RECORDER) (block : audio_block_t) : SD_AUDIO_RECORDER :=
  { s with pool := release block s.pool }

/-- Modelled from the spec: `m_sd_record_queue.update()`, the capture side of a tick. The
queue asks the recorder for the block to capture (`aquire_block_func`); it appends the
block when it is taking blocks in and gives it back (`release_block_func`) otherwise. -/
def queue_update (s : SD_AUDIO_RECORDER) : SD_AUDIO_RECORDER :=
  let r := aquire_block_func s
  match r.1 with
  | none => r.2
  | some block =>
    if r.2.m_sd_record_queue.enabled then
      { r.2 with m_sd_record_queue :=
          { r.2.m_sd_record_queue with queue := r.2.m_sd_record_queue.queue ++ [block] } }
    else release_block_func r.2 block

/-- The effect of `read( block->data, n )` on the samples of the block: the bytes
delivered overwrite the memory of the block from its start, two bytes per sample; an
odd last byte overwrites the low byte of its sample only. -/
def read_into : List Int → List Nat → List Int
  | d, [] => d
  | [], _ :: _ => []
  | d :: ds, [lo] => sample_of_bytes lo (sample_hi d) :: ds
  | _ :: ds, lo :: hi :: rest => sample_of_bytes lo hi :: read_into ds rest

/-- The padding loop of `update_playing()`,
`for( i = n/2; i < AUDIO_BLOCK_SAMPLES; i++ ) block->data[i] = 0;`. -/
def zero_fill (first : Nat) (data : List Int) : List Int :=
  (List.range' first (AUDIO_BLOCK_SAMPLES - first)).foldl (fun d i => d.set i 0) data

/-- Member function `update_playing()`: one playback step; the returned flag is
`finished`. -/
def update_playing (s : SD_AUDIO_RECORDER) : Bool × SD_AUDIO_RECORDER :=
  let set_just_played_block := is_recording s
  match allocate s.pool with
  | none => (false, s)
  | some (block0, pool1) =>
    let s1 := { s with pool := pool1 }
    let r : Bool × audio_block_t × SD_AUDIO_RECORDER :=
      if File_available s1.SD s1.m_play_back_audio_file > 0 then
        let rd := File_read s1.SD s1.m_play_back_audio_file (AUDIO_BLOCK_SAMPLES * 2)
        let n := rd.1.length
        let block : audio_block_t :=
          { block0 with data := zero_fill (n / 2) (read_into block0.data rd.1) }
        (false, block, { s1 with
          m_play_back_audio_file := rd.2
          m_play_back_file_offset := u32 (s1.m_play_back_file_offset + n)
          transmitted := s1.transmitted ++ [block] })
      else
        (true, block0, { s1 with m_play_back_audio_file := none })
    let finished := r.1
    let block := r.2.1
    let s2 := r.2.2
    if set_just_played_block then
      (finished, { s2 with m_just_played_block := some block })
    else
      (finished, { s2 with pool := release block s2.pool })

/-- Member function `update_recording()`: one record step. -/
def update_recording (s : SD_AUDIO_RECORDER) : SD_AUDIO_RECORDER :=
  if s.m_sd_record_queue.available ≥ 2 then
    let first := read_buffer_bytes s.m_sd_record_queue
    let r1 := release_buffer s.m_sd_record_queue s.pool
    let second := read_buffer_bytes r1.1
    let r2 := release_buffer r1.1 r1.2
    let buffer := first ++ second
    { s with
      m_sd_record_queue := r2.1
      pool := r2.2
      SD := File_write s.SD s.m_recorded_audio_file (buffer.take 512) }
  else s

/-- Member function `update()`: one tick. -/
def update (s : SD_AUDIO_RECORDER) : SD_AUDIO_RECORDER :=
  match s.m_mode with
  | MODE.PLAY =>
    let s1 :=
      if s.m_jump_pending then
        match File_seek s.SD s.m_play_back_audio_file s.m_jump_position with
        | some h => { s with
            m_play_back_audio_file := some h
            m_jump_pending := false
            m_play_back_file_offset := s.m_jump_position }
        | none => s
      else s
    let r := update_playing s1
    let finished := r.1
    let s2 := queue_update r.2
    if finished then
      if s2.m_looping then
        { (start_playing s2).2 with m_mode := MODE.PLAY }
      else
        { s2 with m_mode := MODE.STOP }
    else s2
  | MODE.RECORD_INITIAL => update_recording (queue_update s)
  | MODE.RECORD_PLAY | MODE.RECORD_OVERDUB =>
    let r := update_playing s
    let finished := r.1
    let s2 := update_recording (queue_update r.2)
    if finished then
      start_recording (start_playing (stop_recording (switch_play_record_buffers s2))).2
    else s2
  | MODE.STOP => s

/-- The first step of a tick in mode `PLAY`: a pending jump is applied by a seek of the
playback handle; the flag is cleared and the offset set when the seek succeeds. -/
def apply_pending_jump (s : SD_AUDIO_RECORDER) : SD_AUDIO_RECORDER :=
  if s.m_jump_pending then
    match File_seek s.SD s.m_play_back_audio_file s.m_jump_position with
    | some h => { s with
        m_play_back_audio_file := some h
        m_jump_pending := false
        m_play_back_file_offset := s.m_jump_position }
    | none => s
  else s

/-- The rest of a tick in mode `PLAY`, after the pending jump: the playback step, the
capture step and, at the end of the stream, the restart of the loop or the stop. -/
def play_tick (s1 : SD_AUDIO_RECORDER) : SD_AUDIO_RECORDER :=
  let r := update_playing s1
  let finished := r.1
  let s2 := queue_update r.2
  if finished then
    if s2.m_looping then
      { (start_playing s2).2 with m_mode := MODE.PLAY }
    else
      { s2 with m_mode := MODE.STOP }
  else s2

/-- Two states agree on the members that only commands change: the mode, the two
filenames, the looping flag and the pending jump. -/
def same_control (s t : SD_AUDIO_RECORDER) : Prop :=
  t.m_mode = s.m_mode ∧
  t.m_play_back_filename = s.m_play_back_filename ∧
  t.m_record_filename = s.m_record_filename ∧
  t.m_looping = s.m_looping ∧
  t.m_jump_pending = s.m_jump_pending ∧
  t.m_jump_position = s.m_jump_position

/-! ## Sample data -/

/-- A block of the pool holding stale samples. -/
def stale_block (index : Nat) : audio_block_t :=
  { memory_pool_index := index, data := List.replicate AUDIO_BLOCK_SAMPLES 7 }

/-- A card holding a three-sample loop in the first slot. -/
def sample_card : SDClass :=
  { card_ok := true, files := [("RECORD1.RAW", [1, 0, 2, 0, 255, 255])] }

/-- A card that does not answer. -/
def dead_card : SDClass := { card_ok := false, files := [] }

/-- The constructed recorder over the sample card and a pool of two blocks. -/
def sample_stopped : SD_AUDIO_RECORDER :=
  SD_AUDIO_RECORDER.init sample_card [stale_block 0, stale_block 1]

/-- The sample recorder set to a given mode. -/
def sample_in (m : MODE) : SD_AUDIO_RECORDER := { sample_stopped with m_mode := m }

/-- A block whose samples all have the value `v`. -/
def tone_block (index : Nat) (v : Int) : audio_block_t :=
  { memory_pool_index := index, data := List.replicate AUDIO_BLOCK_SAMPLES v }

/-- The upstream object puts a block into the input slot of the recorder. -/
def feed (s : SD_AUDIO_RECORDER) (b : audio_block_t) : SD_AUDIO_RECORDER :=
  { s with inputQueue := some b }

/-- The recorder in `RECORD_OVERDUB` with a played block of value `p` in the hand-off slot
and a live block of value `l` in the input slot. -/
def sample_overdub (p l : Int) : SD_AUDIO_RECORDER :=
  { sample_in MODE.RECORD_OVERDUB with
    m_just_played_block := some (tone_block 5 p)
    inputQueue := some (tone_block 6 l) }

/-- The sample recorder playing its three-sample loop: `play()` from the constructed
state. -/
def sample_playing : SD_AUDIO_RECORDER := play sample_stopped

/-- The end of the first pass over a recorded loop: two blocks are recorded
(`start_record()` and two ticks), `stop_record()` starts the loop, and two ticks play
its two blocks. The playback stream is exhausted; the next tick is the one that finds
the end. -/
def sample_loop_end : SD_AUDIO_RECORDER :=
  update (update (stop_record
    (update (feed (update (feed (start_record sample_stopped) (tone_block 8 1))) (tone_block 9 2)))))

/-- A card holding a file of seven bytes, an odd size, in the first slot. -/
def odd_card : SDClass :=
  { card_ok := true, files := [("RECORD1.RAW", [1, 0, 2, 0, 3, 0, 4])] }

/-- The recorder playing the file of seven bytes: `play()` from the constructed state. -/
def sample_odd_playing : SD_AUDIO_RECORDER :=
  play (SD_AUDIO_RECORDER.init odd_card [stale_block 0, stale_block 1])

/-- The recorder in its first recording pass (`start_record()` from the constructed
state) with the given blocks waiting in the capture queue, oldest first. -/
def sample_queued (blocks : List audio_block_t) : SD_AUDIO_RECORDER :=
  { start_record sample_stopped with
    m_sd_record_queue := { enabled := true, queue := blocks } }

/-- The playing sample recorder with a jump to `target` pending. -/
def sample_jump (target : Nat) : SD_AUDIO_RECORDER :=
  { sample_playing with m_jump_pending := true, m_jump_position := target }

/-- The sample recorder playing its loop once: `play_file("RECORD1.RAW", false)` from the
constructed state. -/
def sample_play_once : SD_AUDIO_RECORDER := play_file sample_stopped "RECORD1.RAW" false

/-- The start of the first pass over the recorded loop of two blocks: the state
`sample_loop_end` is reached from it by two ticks. -/
def sample_loop_start : SD_AUDIO_RECORDER :=
  stop_record
    (update (feed (update (feed (start_record sample_stopped) (tone_block 8 1))) (tone_block 9 2)))

/-- The end of the first recording pass: `start_record()` from the constructed state and
two ticks, each after a block arrived at the input; the two blocks are on the card. -/
def sample_first_pass : SD_AUDIO_RECORDER :=
  update (feed (update (feed (start_record sample_stopped) (tone_block 8 1))) (tone_block 9 2))

/-- An overdub pass over the recorded loop: after `stop_record()` one tick plays the first
block, `start_record()` enters overdub, a live block arrives and one tick mixes it
into the second block. -/
def sample_overdub_pass : SD_AUDIO_RECORDER :=
  update (feed (start_record (update (stop_record sample_first_pass))) (tone_block 10 3))

/-! ## Reachable states -/

/-- The states the recorder can be in: the constructed state, over any card and any
pool, followed by any sequence of the commands `play()`, `stop()`, `start_record()`,
`stop_record()`, `set_read_position(t)`, of ticks `update()`, and of blocks put into
the input slot by the upstream object. -/
inductive Reachable : SD_AUDIO_RECORDER → Prop where
  | init (sd : SDClass) (pool : List audio_block_t) : Reachable (SD_AUDIO_RECORDER.init sd pool)
  | play {s : SD_AUDIO_RECORDER} : Reachable s → Reachable (play s)
  | stop {s : SD_AUDIO_RECORDER} : Reachable s → Reachable (stop s)
  | start_record {s : SD_AUDIO_RECORDER} : Reachable s → Reachable (start_record s)
  | stop_record {s : SD_AUDIO_RECORDER} : Reachable s → Reachable (stop_record s)
  | set_read_position {s : SD_AUDIO_RECORDER} (t : ℚ) :
      Reachable s → Reachable (set_read_position s t)
  | update {s : SD_AUDIO_RECORDER} : Reachable s → Reachable (update s)
  | feed {s : SD_AUDIO_RECORDER} (b : audio_block_t) : Reachable s → Reachable (feed s b)

/-- The state `t` is reached from the state `s` by ticks and by blocks arriving at the
input slot, no tick being one in `RECORD_PLAY` or `RECORD_OVERDUB` whose playback step
reports the end of the loop. -/
inductive QuietTicks : SD_AUDIO_RECORDER → SD_AUDIO_RECORDER → Prop where
  | refl (s : SD_AUDIO_RECORDER) : QuietTicks s s
  | feed {s t : SD_AUDIO_RECORDER} (b : audio_block_t) : QuietTicks s t → QuietTicks s (feed t b)
  | tick {s t : SD_AUDIO_RECORDER} : QuietTicks s t →
      ¬ ((t.m_mode = MODE.RECORD_PLAY ∨ t.m_mode = MODE.RECORD_OVERDUB) ∧
          (update_playing t).1 = true) →
      QuietTicks s (update t)

/-- The invariant of the roles: both filenames are one of the two slots, they differ
while a recording mode is active, and in `PLAY` the playback file is on the card. -/
def roles_ok (s : SD_AUDIO_RECORDER) : Prop :=
  (s.m_play_back_filename = RECORDING_FILENAME1 ∨ s.m_play_back_filename = RECORDING_FILENAME2) ∧
  (s.m_record_filename = RECORDING_FILENAME1 ∨ s.m_record_filename = RECORDING_FILENAME2) ∧
  (is_recording s = true → s.m_play_back_filename ≠ s.m_record_filename) ∧
  (s.m_mode = MODE.PLAY → SD_exists s.SD s.m_play_back_filename = true)

/-! ## Frame properties of the collaborators -/

/-- Writing through a handle keeps the card answering as before. -/
theorem File_write_card_ok (sd : SDClass) (f : Option File) (bytes : List Nat) :
    (File_write sd f bytes).card_ok = sd.card_ok := by
  cases f <;> rfl

/-- Appending to an entry keeps its name. -/
theorem append_to_fst (target : String) (bytes : List Nat) (e : String × List Nat) :
    (append_to target bytes e).1 = e.1 := by
  unfold append_to
  split <;> rfl

/-- Appending to the streams of a table neither adds nor removes a name. -/
theorem lookup_isSome_map_append (name target : String) (bytes : List Nat)
    (files : List (String × List Nat)) :
    ((files.map (append_to target bytes)).lookup name).isSome = (files.lookup name).isSome := by
  induction files with
  | nil => rfl
  | cons e rest ih =>
    have h1 := append_to_fst target bytes e
    rw [List.map_cons]
    generalize append_to target bytes e = e2 at h1
    obtain ⟨k, v⟩ := e
    obtain ⟨k2, v2⟩ := e2
    simp only at h1
    subst h1
    simp only [List.lookup]
    cases name == k2
    · exact ih
    · rfl

/-- Writing through a handle keeps the set of files of the card. -/
theorem File_write_exists (sd : SDClass) (f : Option File) (bytes : List Nat) (name : String) :
    SD_exists (File_write sd f bytes) name = SD_exists sd name := by
  cases f with
  | none => rfl
  | some h => simp only [File_write, SD_exists, lookup_isSome_map_append]

/-- The draining loop of `stop_recording` touches the card, the queue and the pool only,
and keeps the set of files of the card. -/
theorem stop_recording_loop_frame (fuel : Nat) (s : SD_AUDIO_RECORDER) :
    ∃ sd q pool, stop_recording_loop fuel s
        = { s with SD := sd, m_sd_record_queue := q, pool := pool }
      ∧ ∀ name, SD_exists sd name = SD_exists s.SD name := by
  induction fuel generalizing s with
  | zero => exact ⟨s.SD, s.m_sd_record_queue, s.pool, rfl, fun _ => rfl⟩
  | succ n ih =>
    unfold stop_recording_loop
    split
    · obtain ⟨sd, q, pool, h, hex⟩ := ih
        { s with
          SD := File_write s.SD s.m_recorded_audio_file (read_buffer_bytes s.m_sd_record_queue)
          m_sd_record_queue := (release_buffer s.m_sd_record_queue s.pool).1
          pool := (release_buffer s.m_sd_record_queue s.pool).2 }
      refine ⟨sd, q, pool, ?_, ?_⟩
      · rw [h]
      · intro name
        rw [hex name]
        exact File_write_exists _ _ _ _
    · exact ⟨s.SD, s.m_sd_record_queue, s.pool, rfl, fun _ => rfl⟩

/-- Member function `stop_recording` touches the card, the queue, the pool and the record
handle only, and keeps the set of files of the card. -/
theorem stop_recording_frame (s : SD_AUDIO_RECORDER) :
    ∃ sd q pool f, stop_recording s
        = { s with SD := sd, m_sd_record_queue := q, pool := pool, m_recorded_audio_file := f }
      ∧ ∀ name, SD_exists sd name = SD_exists s.SD name := by
  unfold stop_recording
  simp only []
  split
  · obtain ⟨sd, q, pool, h, hex⟩ := stop_recording_loop_frame
      (SD_RECORD_QUEUE.available (SD_RECORD_QUEUE.stop s.m_sd_record_queue))
      { s with m_sd_record_queue := s.m_sd_record_queue.stop }
    exact ⟨sd, q, pool, none, by rw [h], hex⟩
  · exact ⟨s.SD, s.m_sd_record_queue.stop, s.pool, s.m_recorded_audio_file, rfl, fun _ => rfl⟩

/-- Member function `stop_playing` touches the playback handle only. -/
theorem stop_playing_frame (s : SD_AUDIO_RECORDER) :
    ∃ g, stop_playing s = { s with m_play_back_audio_file := g } := by
  unfold stop_playing
  split
  · exact ⟨none, rfl⟩
  · exact ⟨s.m_play_back_audio_file, rfl⟩

/-- Member function `stop_current_mode( false )` touches the card, the queue, the pool and
the two handles only, and keeps the set of files of the card. -/
theorem stop_current_mode_false_frame (s : SD_AUDIO_RECORDER) :
    ∃ sd q pool f g, stop_current_mode s false
        = { s with SD := sd, m_sd_record_queue := q, pool := pool,
                   m_recorded_audio_file := f, m_play_back_audio_file := g }
      ∧ ∀ name, SD_exists sd name = SD_exists s.SD name := by
  have hboth : ∀ t : SD_AUDIO_RECORDER, ∃ sd q pool f g, stop_recording (stop_playing t)
        = { t with SD := sd, m_sd_record_queue := q, pool := pool,
                   m_recorded_audio_file := f, m_play_back_audio_file := g }
      ∧ ∀ name, SD_exists sd name = SD_exists t.SD name := by
    intro t
    obtain ⟨g, hg⟩ := stop_playing_frame t
    obtain ⟨sd, q, pool, f, h, hex⟩ := stop_recording_frame (stop_playing t)
    refine ⟨sd, q, pool, f, g, ?_, ?_⟩
    · rw [h, hg]
    · intro name
      rw [hex name, hg]
  obtain ⟨jb, m, pn, rn, rf, pf, sz, off, jp, jpend, lp, q0, sd0, pool0, inq, tx⟩ := s
  cases m
  · exact ⟨sd0, q0, pool0, rf, pf, rfl, fun _ => rfl⟩
  · obtain ⟨g, hg⟩ := stop_playing_frame
      ⟨jb, MODE.PLAY, pn, rn, rf, pf, sz, off, jp, jpend, lp, q0, sd0, pool0, inq, tx⟩
    refine ⟨sd0, q0, pool0, rf, g, ?_, fun _ => rfl⟩
    simp only [stop_current_mode]
    rw [hg]
    rfl
  · obtain ⟨sd, q, pool, f, h, hex⟩ := stop_recording_frame
      ⟨jb, MODE.RECORD_INITIAL, pn, rn, rf, pf, sz, off, jp, jpend, lp, q0, sd0, pool0, inq, tx⟩
    refine ⟨sd, q, pool, f, pf, ?_, hex⟩
    simp only [stop_current_mode]
    rw [h]
    rfl
  · obtain ⟨sd, q, pool, f, g, h, hex⟩ := hboth
      ⟨jb, MODE.RECORD_PLAY, pn, rn, rf, pf, sz, off, jp, jpend, lp, q0, sd0, pool0, inq, tx⟩
    refine ⟨sd, q, pool, f, g, ?_, hex⟩
    simp only [stop_current_mode]
    rw [h]
    rfl
  · obtain ⟨sd, q, pool, f, g, h, hex⟩ := hboth
      ⟨jb, MODE.RECORD_OVERDUB, pn, rn, rf, pf, sz, off, jp, jpend, lp, q0, sd0, pool0, inq, tx⟩
    refine ⟨sd, q, pool, f, g, ?_, hex⟩
    simp only [stop_current_mode]
    rw [h]
    rfl

/-! ## The loops over the samples of a block -/

/-- Reading a sample after one assignment to the array. -/
theorem getD_set_sample (d : List Int) (a i : Nat) (v : Int) :
    (d.set a v).getD i 0 = if i = a ∧ a < d.length then v else d.getD i 0 := by
  simp only [List.getD_eq_getElem?_getD, List.getElem?_set]
  by_cases h : a = i
  · subst h
    by_cases hl : a < d.length
    · simp [hl]
    · rw [List.getElem?_eq_none (by omega)]
      simp [hl]
  · have h2 : ¬ i = a := fun e => h e.symm
    simp [h, h2]

/-- Number of samples and content after the first `n` rounds of the mixing loop. -/
theorem mix_rounds (played : List Int) (n : Nat) (d : List Int) (hn : n ≤ d.length) :
    ((List.range n).foldl (fun d i => d.set i (wrap16 (d.getD i 0 + played.getD i 0))) d).length
      = d.length ∧
    ∀ i, ((List.range n).foldl
            (fun d i => d.set i (wrap16 (d.getD i 0 + played.getD i 0))) d).getD i 0
          = if i < n then wrap16 (d.getD i 0 + played.getD i 0) else d.getD i 0 := by
  induction n with
  | zero => simp
  | succ k ih =>
    obtain ⟨hlen, hget⟩ := ih (Nat.le_of_succ_le hn)
    rw [List.range_succ, List.foldl_append]
    simp only [List.foldl_cons, List.foldl_nil]
    refine ⟨by rw [List.length_set, hlen], ?_⟩
    intro i
    rw [getD_set_sample, hlen, hget k, hget i]
    by_cases hik : i = k
    · subst hik
      have : i < d.length := hn
      simp [this]
    · have h1 : ¬ (i = k ∧ k < d.length) := fun h => hik h.1
      rw [if_neg h1]
      by_cases hlt : i < k
      · have : i < k + 1 := by omega
        simp [hlt, this]
      · have : ¬ i < k + 1 := by omega
        simp [hlt, this]

/-- Samples of the mixed block: every sample is the 16-bit reduction of the sum. -/
theorem mix_blocks_getD (live played : List Int) (hl : live.length = AUDIO_BLOCK_SAMPLES)
    (i : Nat) (hi : i < AUDIO_BLOCK_SAMPLES) :
    (mix_blocks live played).getD i 0 = wrap16 (live.getD i 0 + played.getD i 0) := by
  have h := (mix_rounds played AUDIO_BLOCK_SAMPLES live (by omega)).2 i
  unfold mix_blocks
  rw [h, if_pos hi]

/-- The mixing loop keeps the number of samples. -/
theorem mix_blocks_length (live played : List Int) (hl : live.length = AUDIO_BLOCK_SAMPLES) :
    (mix_blocks live played).length = live.length :=
  (mix_rounds played AUDIO_BLOCK_SAMPLES live (by omega)).1

/-- The 16-bit reduction leaves a value of the `int16_t` range as it is. -/
theorem wrap16_in_range (x : Int) (h1 : INT16_MIN ≤ x) (h2 : x ≤ INT16_MAX) : wrap16 x = x := by
  unfold INT16_MIN at h1
  unfold INT16_MAX at h2
  unfold wrap16
  omega

/-- Padding loop: the samples after `k` rounds from `a`. -/
theorem zero_rounds (k : Nat) : ∀ (a : Nat) (d : List Int),
    ((List.range' a k).foldl (fun d i => d.set i 0) d).length = d.length ∧
    ∀ i, ((List.range' a k).foldl (fun d i => d.set i 0) d).getD i 0
          = if a ≤ i ∧ i < a + k then 0 else d.getD i 0 := by
  induction k with
  | zero =>
    intro a d
    refine ⟨rfl, fun i => ?_⟩
    have : ¬ (a ≤ i ∧ i < a + 0) := by omega
    rw [if_neg this]
    rfl
  | succ k ih =>
    intro a d
    obtain ⟨hlen, hget⟩ := ih (a + 1) (d.set a 0)
    rw [List.range'_succ, List.foldl_cons]
    refine ⟨by rw [hlen, List.length_set], ?_⟩
    intro i
    rw [hget i, getD_set_sample]
    by_cases h1 : a + 1 ≤ i ∧ i < a + 1 + k
    · have : a ≤ i ∧ i < a + (k + 1) := by omega
      simp [h1, this]
    · rw [if_neg h1]
      by_cases h2 : i = a
      · subst h2
        by_cases h3 : i < d.length
        · simp [h3]
        · have : d.getD i 0 = 0 := by
            simp only [List.getD_eq_getElem?_getD]
            rw [List.getElem?_eq_none (by omega)]
            rfl
          have h6 : ¬ (i = i ∧ i < d.length) := fun h => h3 h.2
          have h7 : i ≤ i ∧ i < i + (k + 1) := by omega
          rw [if_neg h6, if_pos h7, this]
      · have h4 : ¬ (i = a ∧ a < d.length) := fun h => h2 h.1
        have h5 : ¬ (a ≤ i ∧ i < a + (k + 1)) := by omega
        rw [if_neg h4, if_neg h5]

/-- Reading from the stream keeps the number of samples of the block. -/
theorem read_into_length : ∀ (d : List Int) (bytes : List Nat),
    (read_into d bytes).length = d.length
  | d, [] => by cases d <;> simp [read_into]
  | [], _ :: _ => by simp [read_into]
  | _ :: _, [_] => by simp [read_into]
  | _ :: ds, _ :: _ :: rest => by simp [read_into, read_into_length ds rest]

/-- Reading from the stream: a sample whose two bytes were both delivered holds them. -/
theorem read_into_getD : ∀ (d : List Int) (bytes : List Nat) (i : Nat),
    2 * i + 1 < bytes.length → i < d.length →
    (read_into d bytes).getD i 0 = sample_of_bytes (bytes.getD (2 * i) 0) (bytes.getD (2 * i + 1) 0)
  | d, [], i, h, _ => by simp at h
  | [], _ :: _, i, _, h => by simp at h
  | _ :: _, [_], i, h, _ => by simp at h
  | _ :: ds, lo :: hi :: rest, 0, _, _ => by simp [read_into]
  | _ :: ds, lo :: hi :: rest, i + 1, h, h2 => by
    have h3 : 2 * i + 1 < rest.length := by simp at h; omega
    have h4 : i < ds.length := by simp at h2; omega
    have ih := read_into_getD ds rest i h3 h4
    have e1 : 2 * (i + 1) = (2 * i) + 1 + 1 := by omega
    have e2 : 2 * (i + 1) + 1 = (2 * i + 1) + 1 + 1 := by omega
    rw [e1]
    simp only [read_into, List.getD_cons_succ]
    exact ih

/-! ## The mode machine -/

/-- C1. `start_record()` sets the mode to `RECORD_INITIAL` when it was `STOP`, on every
card (whether or not the record file could be opened), sets it to `RECORD_OVERDUB` when it
was `RECORD_PLAY`, and leaves it as it was in `PLAY`, `RECORD_INITIAL` and
`RECORD_OVERDUB`. -/
theorem start_record_mode (s : SD_AUDIO_RECORDER) :
    (s.m_mode = MODE.STOP → (start_record s).m_mode = MODE.RECORD_INITIAL) ∧
    (s.m_mode = MODE.RECORD_PLAY → (start_record s).m_mode = MODE.RECORD_OVERDUB) ∧
    (s.m_mode = MODE.PLAY ∨ s.m_mode = MODE.RECORD_INITIAL ∨ s.m_mode = MODE.RECORD_OVERDUB →
      (start_record s).m_mode = s.m_mode) := by
  refine ⟨?_, ?_, ?_⟩
  · intro h
    simp [start_record, h]
  · intro h
    simp [start_record, h]
  · intro h
    rcases h with h | h | h <;> simp [start_record, h]


/-- Witness of C1: the sample recorder in `STOP`, in `RECORD_PLAY` and in `PLAY`, and a
recorder over a card that does not answer, where the record file cannot be opened and
the mode still becomes `RECORD_INITIAL`. -/
theorem start_record_mode_witness :
    (start_record (sample_in MODE.STOP)).m_mode = MODE.RECORD_INITIAL ∧
    (start_record (SD_AUDIO_RECORDER.init dead_card [])).m_mode = MODE.RECORD_INITIAL ∧
    (start_record (SD_AUDIO_RECORDER.init dead_card [])).m_recorded_audio_file = none ∧
    (start_record (sample_in MODE.RECORD_PLAY)).m_mode = MODE.RECORD_OVERDUB ∧
    (start_record (sample_in MODE.PLAY)).m_mode = MODE.PLAY :=
  ⟨(start_record_mode (sample_in MODE.STOP)).1 rfl,
   (start_record_mode (SD_AUDIO_RECORDER.init dead_card [])).1 rfl,
   by decide,
   (start_record_mode (sample_in MODE.RECORD_PLAY)).2.1 rfl,
   (start_record_mode (sample_in MODE.PLAY)).2.2 (Or.inl rfl)⟩

/-- What `start_playing` reports and what it leaves alone: the flag tells whether the
playback file is on the card, the handle is the outcome of the open, and the mode, the
filenames, the looping flag, the card, the record handle are kept. -/
theorem start_playing_frame (s : SD_AUDIO_RECORDER) :
    (start_playing s).1 = (SD_open s.SD s.m_play_back_filename).isSome ∧
    (start_playing s).2.m_play_back_audio_file = SD_open s.SD s.m_play_back_filename ∧
    (start_playing s).2.m_mode = s.m_mode ∧
    (start_playing s).2.m_play_back_filename = s.m_play_back_filename ∧
    (start_playing s).2.m_record_filename = s.m_record_filename ∧
    (start_playing s).2.m_looping = s.m_looping ∧
    (start_playing s).2.SD = s.SD ∧
    (start_playing s).2.m_recorded_audio_file = s.m_recorded_audio_file := by
  obtain ⟨g, hg⟩ := stop_playing_frame s
  unfold start_playing
  simp only [hg]
  cases h : SD_open s.SD s.m_play_back_filename <;> simp

/-- Member function `start_recording` touches the card, the record handle, the queue and
the pool only. -/
theorem start_recording_frame (s : SD_AUDIO_RECORDER) :
    ∃ sd f q pool, start_recording s
      = { s with SD := sd, m_recorded_audio_file := f, m_sd_record_queue := q, pool := pool } := by
  unfold start_recording
  simp only []
  repeat' split
  all_goals exact ⟨_, _, _, _, rfl⟩

/-- C2. `stop_record()` from `RECORD_INITIAL` ends in `RECORD_PLAY` with the playback and
record filenames exchanged; from `RECORD_OVERDUB` it ends in `RECORD_PLAY` and changes
nothing but the mode, so the filenames, the playback cursor (offset and size) and both
file handles are the ones before the call. -/
theorem stop_record_mode (s : SD_AUDIO_RECORDER) :
    (s.m_mode = MODE.RECORD_INITIAL →
      (stop_record s).m_mode = MODE.RECORD_PLAY ∧
      (stop_record s).m_play_back_filename = s.m_record_filename ∧
      (stop_record s).m_record_filename = s.m_play_back_filename) ∧
    (s.m_mode = MODE.RECORD_OVERDUB →
      stop_record s = { s with m_mode := MODE.RECORD_PLAY } ∧
      (stop_record s).m_mode = MODE.RECORD_PLAY ∧
      (stop_record s).m_play_back_filename = s.m_play_back_filename ∧
      (stop_record s).m_record_filename = s.m_record_filename ∧
      (stop_record s).m_play_back_file_offset = s.m_play_back_file_offset ∧
      (stop_record s).m_play_back_file_size = s.m_play_back_file_size ∧
      (stop_record s).m_play_back_audio_file = s.m_play_back_audio_file ∧
      (stop_record s).m_recorded_audio_file = s.m_recorded_audio_file) := by
  constructor
  · intro h
    obtain ⟨sd, q, pool, f, hs, -⟩ := stop_recording_frame s
    have hp := start_playing_frame (switch_play_record_buffers (stop_recording s))
    obtain ⟨sd2, f2, q2, pool2, hr⟩ := start_recording_frame
      (start_playing (switch_play_record_buffers (stop_recording s))).2
    have hsr : stop_record s
        = { start_recording (start_playing (switch_play_record_buffers (stop_recording s))).2
            with m_mode := MODE.RECORD_PLAY } := by
      simp only [stop_record, h]
    rw [hsr, hr]
    refine ⟨rfl, ?_, ?_⟩
    · show (start_playing _).2.m_play_back_filename = _
      rw [hp.2.2.2.1, hs]
      rfl
    · show (start_playing _).2.m_record_filename = _
      rw [hp.2.2.2.2.1, hs]
      rfl
  · intro h
    simp [stop_record, h]


/-- Witness of C2: `stop_record()` after `start_record()` from the constructed state, and
`stop_record()` in the overdub sample. -/
theorem stop_record_mode_witness :
    ((stop_record (start_record sample_stopped)).m_mode = MODE.RECORD_PLAY ∧
      (stop_record (start_record sample_stopped)).m_play_back_filename = "RECORD2.RAW" ∧
      (stop_record (start_record sample_stopped)).m_record_filename = "RECORD1.RAW") ∧
    stop_record (sample_overdub 2 100)
      = { sample_overdub 2 100 with m_mode := MODE.RECORD_PLAY } :=
  ⟨(stop_record_mode (start_record sample_stopped)).1 (by decide),
   ((stop_record_mode (sample_overdub 2 100)).2 (by decide)).1⟩

/-- C3. A command issued in a mode that does not support it changes nothing at all:
`start_record()` outside `STOP` and `RECORD_PLAY`, `stop_record()` outside
`RECORD_INITIAL` and `RECORD_OVERDUB`, and `set_read_position(t)` outside `PLAY` return
the state they were given. -/
theorem invalid_command_no_change (s : SD_AUDIO_RECORDER) (t : ℚ) :
    (s.m_mode ≠ MODE.STOP ∧ s.m_mode ≠ MODE.RECORD_PLAY → start_record s = s) ∧
    (s.m_mode ≠ MODE.RECORD_INITIAL ∧ s.m_mode ≠ MODE.RECORD_OVERDUB → stop_record s = s) ∧
    (s.m_mode ≠ MODE.PLAY → set_read_position s t = s) := by
  refine ⟨?_, ?_, ?_⟩
  · rintro ⟨h1, h2⟩
    unfold start_record
    split <;> simp_all
  · rintro ⟨h1, h2⟩
    unfold stop_record
    split <;> simp_all
  · intro h
    simp [set_read_position, h]


/-- Witness of C3: the three commands in modes that do not support them. -/
theorem invalid_command_no_change_witness :
    start_record sample_playing = sample_playing ∧
    stop_record sample_playing = sample_playing ∧
    set_read_position (sample_overdub 2 100) 1 = sample_overdub 2 100 :=
  ⟨(invalid_command_no_change sample_playing 1).1 ⟨by decide, by decide⟩,
   (invalid_command_no_change sample_playing 1).2.1 ⟨by decide, by decide⟩,
   (invalid_command_no_change (sample_overdub 2 100) 1).2.2 (by decide)⟩

/-- C4. `play_file(filename, loop)` ends in `PLAY` exactly when the playback file can be
opened (it is on the card) and in `STOP` otherwise; either way the looping flag is
`loop`, the playback filename is `filename` and the record filename is the one before
the call. -/
theorem play_file_outcome (s : SD_AUDIO_RECORDER) (filename : String) (loop : Bool) :
    ((play_file s filename loop).m_mode = MODE.PLAY ↔ (SD_open s.SD filename).isSome = true) ∧
    ((play_file s filename loop).m_mode = MODE.STOP ↔ (SD_open s.SD filename).isSome = false) ∧
    ((play_file s filename loop).m_mode = MODE.PLAY ↔
      (play_file s filename loop).m_play_back_audio_file.isSome = true) ∧
    (play_file s filename loop).m_looping = loop ∧
    (play_file s filename loop).m_play_back_filename = filename ∧
    (play_file s filename loop).m_record_filename = s.m_record_filename := by
  have key : ∃ s2 : SD_AUDIO_RECORDER,
      play_file s filename loop
        = (if (start_playing s2).1 then { (start_playing s2).2 with m_mode := MODE.PLAY }
           else { (start_playing s2).2 with m_mode := MODE.STOP }) ∧
      s2.m_play_back_filename = filename ∧ s2.m_looping = loop ∧
      s2.m_record_filename = s.m_record_filename ∧
      SD_exists s2.SD filename = SD_exists s.SD filename := by
    unfold play_file
    simp only []
    split
    · obtain ⟨sd, q, pool, f, g, h, hex⟩ := stop_current_mode_false_frame
        { s with m_play_back_filename := filename, m_looping := loop }
      refine ⟨_, rfl, ?_, ?_, ?_, ?_⟩ <;> rw [h]
      exact hex filename
    · exact ⟨_, rfl, rfl, rfl, rfl, rfl⟩
  obtain ⟨s2, hpf, hn, hl, hr, hex⟩ := key
  obtain ⟨h1, h2, -, h4, h5, h6, -, -⟩ := start_playing_frame s2
  have hopen : SD_open s2.SD s2.m_play_back_filename = SD_open s.SD filename := by
    simp only [SD_open, hn, hex]
  rw [hopen] at h1 h2
  rw [hpf]
  cases hb : (start_playing s2).1
  · rw [hb] at h1
    simp [← h1, h2, h4, h5, h6, hn, hl, hr]
  · rw [hb] at h1
    simp [← h1, h2, h4, h5, h6, hn, hl, hr]

/-- C5. After `stop()` the mode is `STOP` and both filenames are the first slot,
"RECORD1.RAW". -/
theorem stop_resets (s : SD_AUDIO_RECORDER) :
    (stop s).m_mode = MODE.STOP ∧
    (stop s).m_play_back_filename = "RECORD1.RAW" ∧
    (stop s).m_record_filename = "RECORD1.RAW" := by
  simp [stop, stop_current_mode, RECORDING_FILENAME1]

/-- C10. In mode `PLAY`, `set_read_position(t)` sets the pending-jump flag and stores a
target offset that is a multiple of the stride of the code, `block_size = 2` bytes. -/
theorem set_read_position_aligned (s : SD_AUDIO_RECORDER) (t : ℚ)
    (h : s.m_mode = MODE.PLAY) :
    (set_read_position s t).m_jump_pending = true ∧
    2 ∣ (set_read_position s t).m_jump_position := by
  simp only [set_read_position, h, if_true, u32, true_and]
  omega


/-- Witness of C10: a jump to the end of the playing sample loop. -/
theorem set_read_position_aligned_witness :
    sample_playing.m_mode = MODE.PLAY ∧
    (set_read_position sample_playing 1).m_jump_pending = true ∧
    2 ∣ (set_read_position sample_playing 1).m_jump_position :=
  ⟨by decide, set_read_position_aligned sample_playing 1 (by decide)⟩

/-! ## The playback step -/

/-- The outcome of a playback step that finds bytes in the stream (and a free block): the
block taken from the pool is filled from the stream, padded and transmitted, and the
step does not report the end. -/
theorem update_playing_available (s : SD_AUDIO_RECORDER) (block0 : audio_block_t)
    (rest : List audio_block_t) (h : File)
    (hpool : s.pool = block0 :: rest) (hf : s.m_play_back_audio_file = some h)
    (hav : 0 < File_available s.SD s.m_play_back_audio_file) :
    let bytes := ((SD_content s.SD h.name).drop h.pos).take (AUDIO_BLOCK_SAMPLES * 2)
    let block : audio_block_t :=
      { block0 with data := zero_fill (bytes.length / 2) (read_into block0.data bytes) }
    (update_playing s).1 = false ∧
    (update_playing s).2.transmitted = s.transmitted ++ [block] ∧
    (update_playing s).2.m_just_played_block
      = (if is_recording s then some block else s.m_just_played_block) ∧
    (update_playing s).2.m_play_back_audio_file = some { h with pos := h.pos + bytes.length } ∧
    (update_playing s).2.SD = s.SD ∧
    (update_playing s).2.pool = (if is_recording s then rest else block :: rest) := by
  intro bytes block
  have hav2 : File_available s.SD (some h) > 0 := by rw [← hf]; exact hav
  unfold update_playing
  simp only [hpool, allocate, hf, hav2, if_true, File_read]
  cases hr : is_recording s <;> simp [release, bytes, block]

/-- A byte delivered by a read is the byte of the stream at the position of the handle
plus its index. -/
theorem read_bytes_getD (content : List Nat) (pos nbyte j : Nat) (hj : j < nbyte) :
    ((content.drop pos).take nbyte).getD j 0 = content.getD (pos + j) 0 := by
  simp only [List.getD_eq_getElem?_getD, List.getElem?_take, hj, if_true, List.getElem?_drop]

/-- Padding at the end of the stream (the part of C8 the code meets): when a playback
step finds `n` bytes in the stream, `0 < n < 2 * AUDIO_BLOCK_SAMPLES`, the block it
transmits (and holds for the recorder in a recording mode) has the samples read from
the stream at the indices below `n / 2` and zero at every index from `n / 2` on. -/
theorem update_playing_pads (s : SD_AUDIO_RECORDER) (block0 : audio_block_t)
    (rest : List audio_block_t) (h : File)
    (hpool : s.pool = block0 :: rest) (hlen : block0.data.length = AUDIO_BLOCK_SAMPLES)
    (hf : s.m_play_back_audio_file = some h)
    (hpos : 0 < File_available s.SD s.m_play_back_audio_file)
    (hshort : File_available s.SD s.m_play_back_audio_file < 2 * AUDIO_BLOCK_SAMPLES) :
    ∃ block : audio_block_t,
      (update_playing s).2.transmitted = s.transmitted ++ [block] ∧
      (is_recording s = true → (update_playing s).2.m_just_played_block = some block) ∧
      block.data.length = AUDIO_BLOCK_SAMPLES ∧
      (∀ i, File_available s.SD s.m_play_back_audio_file / 2 ≤ i → i < AUDIO_BLOCK_SAMPLES →
        block.data.getD i 0 = 0) ∧
      (∀ i, i < File_available s.SD s.m_play_back_audio_file / 2 →
        block.data.getD i 0
          = sample_of_bytes ((SD_content s.SD h.name).getD (h.pos + 2 * i) 0)
              ((SD_content s.SD h.name).getD (h.pos + (2 * i + 1)) 0)) := by
  obtain ⟨-, htx, hjp, -, -, -⟩ := update_playing_available s block0 rest h hpool hf hpos
  rw [hf] at hpos hshort
  rw [hf]
  simp only [File_available] at hpos hshort ⊢
  have hn : (((SD_content s.SD h.name).drop h.pos).take (AUDIO_BLOCK_SAMPLES * 2)).length
      = (SD_content s.SD h.name).length - h.pos := by
    rw [List.length_take, List.length_drop]
    omega
  rw [hn] at htx hjp
  refine ⟨_, htx, ?_, ?_, ?_, ?_⟩
  · intro hr
    rw [hjp, if_pos hr]
  · show (zero_fill _ _).length = _
    unfold zero_fill
    rw [(zero_rounds _ _ _).1, read_into_length, hlen]
  · intro i h1 h2
    show (zero_fill _ _).getD i 0 = 0
    unfold zero_fill
    rw [(zero_rounds _ _ _).2 i, if_pos]
    omega
  · intro i h1
    show (zero_fill _ _).getD i 0 = _
    unfold zero_fill
    rw [(zero_rounds _ _ _).2 i, if_neg (by omega), read_into_getD]
    · rw [read_bytes_getD _ _ _ _ (by unfold AUDIO_BLOCK_SAMPLES at *; omega),
        read_bytes_getD _ _ _ _ (by unfold AUDIO_BLOCK_SAMPLES at *; omega)]
    · rw [hn]; omega
    · rw [hlen]; unfold AUDIO_BLOCK_SAMPLES at *; omega

/-- The outcome of a playback step that finds the stream exhausted (and a free block):
the step reports the end and closes the handle; the block taken from the pool is not
written to. -/
theorem update_playing_exhausted (s : SD_AUDIO_RECORDER) (block0 : audio_block_t)
    (rest : List audio_block_t)
    (hpool : s.pool = block0 :: rest)
    (hav : File_available s.SD s.m_play_back_audio_file = 0) :
    (update_playing s).1 = true ∧
    (update_playing s).2.transmitted = s.transmitted ∧
    (update_playing s).2.m_just_played_block
      = (if is_recording s then some block0 else s.m_just_played_block) ∧
    (update_playing s).2.m_play_back_audio_file = none := by
  unfold update_playing
  simp only [hpool, allocate, hav, Nat.lt_irrefl, if_false]
  cases hr : is_recording s <;> simp

/-- C9 (as the code has it). A playback step that obtains a block reports
`finished = true` exactly when it finds no byte in the stream. A step that finds `n`
bytes, `0 < n < 2 * AUDIO_BLOCK_SAMPLES`, reads them, returns `finished = false` and
leaves the stream exhausted; the end is reported by the next step that obtains a
block. -/
theorem update_playing_finished (s : SD_AUDIO_RECORDER) (block0 : audio_block_t)
    (rest : List audio_block_t) (hpool : s.pool = block0 :: rest) :
    ((update_playing s).1 = true ↔ File_available s.SD s.m_play_back_audio_file = 0) ∧
    (0 < File_available s.SD s.m_play_back_audio_file →
      File_available s.SD s.m_play_back_audio_file < 2 * AUDIO_BLOCK_SAMPLES →
      (update_playing s).1 = false ∧
      File_available (update_playing s).2.SD (update_playing s).2.m_play_back_audio_file = 0 ∧
      ((update_playing s).2.pool ≠ [] → (update_playing (update_playing s).2).1 = true)) := by
  have hpos : 0 < File_available s.SD s.m_play_back_audio_file →
      ∃ h, s.m_play_back_audio_file = some h := by
    intro hp
    cases hf : s.m_play_back_audio_file with
    | none => rw [hf] at hp; simp [File_available] at hp
    | some h => exact ⟨h, rfl⟩
  constructor
  · constructor
    · intro hfin
      by_contra hne
      obtain ⟨h, hf⟩ := hpos (Nat.pos_of_ne_zero hne)
      have := (update_playing_available s block0 rest h hpool hf (Nat.pos_of_ne_zero hne)).1
      rw [this] at hfin
      exact Bool.false_ne_true hfin
    · intro hz
      exact (update_playing_exhausted s block0 rest hpool hz).1
  · intro hp hshort
    obtain ⟨h, hf⟩ := hpos hp
    obtain ⟨h1, -, -, h4, h5, -⟩ := update_playing_available s block0 rest h hpool hf hp
    have hzero : File_available (update_playing s).2.SD
        (update_playing s).2.m_play_back_audio_file = 0 := by
      rw [h4, h5]
      rw [hf] at hshort
      simp only [File_available, List.length_take, List.length_drop] at hshort ⊢
      omega
    refine ⟨h1, hzero, ?_⟩
    intro hne
    cases hp2 : (update_playing s).2.pool with
    | nil => exact absurd hp2 hne
    | cons b r => exact (update_playing_exhausted _ b r hp2 hzero).1


/-- Witness of the amended C9: the sample loop of six bytes. The first step reads the
six bytes and does not report the end; the second step does. -/
theorem update_playing_finished_witness :
    sample_playing.pool = [stale_block 0, stale_block 1] ∧
    (update_playing sample_playing).1 = false ∧
    (update_playing (update_playing sample_playing).2).1 = true :=
  ⟨by decide,
   ((update_playing_finished sample_playing (stale_block 0) [stale_block 1] (by decide)).2
      (by decide) (by decide)).1,
   ((update_playing_finished sample_playing (stale_block 0) [stale_block 1] (by decide)).2
      (by decide) (by decide)).2.2 (by decide)⟩

/-- C9 fails on the code: the playing sample loop has six bytes left, fewer than a full
block; the step reads them (the offset advances by six) and returns
`finished = false`. -/
theorem update_playing_short_read_counterexample :
    File_available sample_playing.SD sample_playing.m_play_back_audio_file = 6 ∧
    6 < AUDIO_BLOCK_SAMPLES * 2 ∧
    (update_playing sample_playing).2.m_play_back_file_offset
      = sample_playing.m_play_back_file_offset + 6 ∧
    (update_playing sample_playing).1 = false := by
  decide

/-- C8 at the end of a loop. At the end of the first pass over a recorded loop of two
blocks the playback stream is exhausted (zero bytes left). The playback step takes a
block from the pool and hands it to the recorder as it is: the block still holds the
samples of its previous use (value 2), not zeros. The tick records it, so the loop
written by this pass has three blocks (768 bytes) where the loop played had two
(512 bytes), and its third block holds the stale samples. -/
theorem update_playing_stale_block_at_end :
    sample_loop_end.m_mode = MODE.RECORD_PLAY ∧
    (SD_content sample_loop_end.SD "RECORD2.RAW").length = 512 ∧
    File_available sample_loop_end.SD sample_loop_end.m_play_back_audio_file = 0 ∧
    (update_playing sample_loop_end).1 = true ∧
    (update_playing sample_loop_end).2.m_just_played_block = some (tone_block 8 2) ∧
    (SD_content (update sample_loop_end).SD "RECORD1.RAW").length = 768 ∧
    ((SD_content (update sample_loop_end).SD "RECORD1.RAW").drop 512).take 4 = [2, 0, 2, 0] := by
  decide

/-! ## The block handed to the capture queue -/

/-- The overdub branch of `aquire_block_func` with both blocks present: the returned
block is the incoming block with the mixed samples, the played block goes back to the
pool, and only the input slot, the pool and the hand-off slot change. -/
theorem aquire_block_func_overdub (s : SD_AUDIO_RECORDER) (played live : audio_block_t)
    (hm : s.m_mode = MODE.RECORD_OVERDUB) (hp : s.m_just_played_block = some played)
    (hl : s.inputQueue = some live) :
    aquire_block_func s
      = (some { live with data := mix_blocks live.data played.data },
         { s with inputQueue := none, pool := played :: s.pool, m_just_played_block := none }) := by
  unfold aquire_block_func
  simp [hm, receive, hp, hl, release]

/-- C7. Overdub mixing with a played block and a live block both present: the block
returned is the live block (same pool slot, same number of samples) in which every
sample whose sum lies in the `int16_t` range is exactly `live[i] + played[i]`; the
played block is released to the pool and the hand-off slot is left empty. -/
theorem overdub_mix_exact (s : SD_AUDIO_RECORDER) (played live : audio_block_t)
    (hm : s.m_mode = MODE.RECORD_OVERDUB) (hp : s.m_just_played_block = some played)
    (hl : s.inputQueue = some live) (hlen : live.data.length = AUDIO_BLOCK_SAMPLES) :
    ∃ out : audio_block_t,
      (aquire_block_func s).1 = some out ∧
      out.memory_pool_index = live.memory_pool_index ∧
      out.data.length = live.data.length ∧
      (∀ i, i < AUDIO_BLOCK_SAMPLES →
        INT16_MIN ≤ live.data.getD i 0 + played.data.getD i 0 →
        live.data.getD i 0 + played.data.getD i 0 ≤ INT16_MAX →
        out.data.getD i 0 = live.data.getD i 0 + played.data.getD i 0) ∧
      (aquire_block_func s).2.pool = release played s.pool ∧
      (aquire_block_func s).2.m_just_played_block = none := by
  rw [aquire_block_func_overdub s played live hm hp hl]
  have hmixlen := mix_blocks_length live.data played.data hlen
  have hmix := fun i hi => mix_blocks_getD live.data played.data hlen i hi
  generalize mix_blocks live.data played.data = mixed at hmixlen hmix ⊢
  refine ⟨{ live with data := mixed }, rfl, rfl, hmixlen, ?_, rfl, rfl⟩
  intro i hi h1 h2
  show mixed.getD i 0 = _
  rw [hmix i hi, wrap16_in_range _ h1 h2]

/-- Witness of C7: a played block of value 2 mixed into a live block of value 100. -/
theorem overdub_mix_exact_witness :
    (sample_overdub 2 100).m_mode = MODE.RECORD_OVERDUB ∧
    ∃ out : audio_block_t,
      (aquire_block_func (sample_overdub 2 100)).1 = some out ∧
      out.memory_pool_index = (tone_block 6 100).memory_pool_index ∧
      out.data.length = (tone_block 6 100).data.length ∧
      (∀ i, i < AUDIO_BLOCK_SAMPLES →
        INT16_MIN ≤ (tone_block 6 100).data.getD i 0 + (tone_block 5 2).data.getD i 0 →
        (tone_block 6 100).data.getD i 0 + (tone_block 5 2).data.getD i 0 ≤ INT16_MAX →
        out.data.getD i 0 = (tone_block 6 100).data.getD i 0 + (tone_block 5 2).data.getD i 0) ∧
      (aquire_block_func (sample_overdub 2 100)).2.pool
        = release (tone_block 5 2) (sample_overdub 2 100).pool ∧
      (aquire_block_func (sample_overdub 2 100)).2.m_just_played_block = none :=
  ⟨rfl, overdub_mix_exact (sample_overdub 2 100) (tone_block 5 2) (tone_block 6 100)
    rfl rfl rfl rfl⟩

/-- C6 at overflowing pairs. A live sample 32767 mixed with a played sample 1 has the sum
32768, above 32767: every sample of the block returned is -32768, not the boundary
value 32767, and the condition asserted under "CLIPPING" is false of it. With a played
sample 2 the sum is 32769 and every sample returned is -32767, of which the asserted
condition holds, so this overflow passes the check made after the store. A live sample
-32768 mixed with a played sample -1 has the sum -32769, below -32768, and comes out
as 32767. In each case the call changes the input slot, the pool and the hand-off slot
only: nothing counts the clip. -/
theorem overdub_mix_overflow_not_clamped :
    (sample_overdub 1 32767).m_mode = MODE.RECORD_OVERDUB ∧
    (sample_overdub 1 32767).m_just_played_block = some (tone_block 5 1) ∧
    (sample_overdub 1 32767).inputQueue = some (tone_block 6 32767) ∧
    (tone_block 6 32767).data.getD 0 0 + (tone_block 5 1).data.getD 0 0 = 32768 ∧
    (aquire_block_func (sample_overdub 1 32767)).1 = some (tone_block 6 (-32768)) ∧
    (-32768 : Int) ≠ INT16_MAX ∧
    clipping_assert (-32768) = false ∧
    (aquire_block_func (sample_overdub 1 32767)).2
      = { sample_overdub 1 32767 with
          inputQueue := none
          pool := tone_block 5 1 :: (sample_overdub 1 32767).pool
          m_just_played_block := none } ∧
    (tone_block 6 32767).data.getD 0 0 + (tone_block 5 2).data.getD 0 0 = 32769 ∧
    (aquire_block_func (sample_overdub 2 32767)).1 = some (tone_block 6 (-32767)) ∧
    (-32767 : Int) ≠ INT16_MAX ∧
    clipping_assert (-32767) = true ∧
    (tone_block 6 (-32768)).data.getD 0 0 + (tone_block 5 (-1)).data.getD 0 0 = -32769 ∧
    (aquire_block_func (sample_overdub (-1) (-32768))).1 = some (tone_block 6 32767) ∧
    (32767 : Int) ≠ INT16_MIN := by
  decide

/-- What the mixing loop stores on overflow, in general. Overdub mixing with a played block
and a live block both present stores every sum reduced to `int16_t`: a sum of two
`int16_t` samples above 32767 comes out as the sum minus 65536 (a negative value) and a
sum below -32768 as the sum plus 65536 (a non-negative value), never as the boundary
value. The call changes the input slot, the pool and the hand-off slot and nothing
else. -/
theorem overdub_mix_wraps (s : SD_AUDIO_RECORDER) (played live : audio_block_t)
    (hm : s.m_mode = MODE.RECORD_OVERDUB) (hp : s.m_just_played_block = some played)
    (hl : s.inputQueue = some live) (hlen : live.data.length = AUDIO_BLOCK_SAMPLES) :
    ∃ out : audio_block_t,
      (aquire_block_func s).1 = some out ∧
      (∀ i, i < AUDIO_BLOCK_SAMPLES →
        out.data.getD i 0 = wrap16 (live.data.getD i 0 + played.data.getD i 0)) ∧
      (∀ i, i < AUDIO_BLOCK_SAMPLES →
        INT16_MIN ≤ live.data.getD i 0 → live.data.getD i 0 ≤ INT16_MAX →
        INT16_MIN ≤ played.data.getD i 0 → played.data.getD i 0 ≤ INT16_MAX →
        (INT16_MAX < live.data.getD i 0 + played.data.getD i 0 →
          out.data.getD i 0 = live.data.getD i 0 + played.data.getD i 0 - 65536 ∧
          out.data.getD i 0 < 0) ∧
        (live.data.getD i 0 + played.data.getD i 0 < INT16_MIN →
          out.data.getD i 0 = live.data.getD i 0 + played.data.getD i 0 + 65536 ∧
          0 ≤ out.data.getD i 0)) ∧
      (aquire_block_func s).2
        = { s with inputQueue := none, pool := played :: s.pool, m_just_played_block := none } := by
  rw [aquire_block_func_overdub s played live hm hp hl]
  have hmix := fun i hi => mix_blocks_getD live.data played.data hlen i hi
  generalize mix_blocks live.data played.data = mixed at hmix ⊢
  refine ⟨{ live with data := mixed }, rfl, ?_, ?_, rfl⟩
  · intro i hi
    exact hmix i hi
  · intro i hi h1 h2 h3 h4
    show (_ → mixed.getD i 0 = _ ∧ mixed.getD i 0 < 0) ∧
      (_ → mixed.getD i 0 = _ ∧ 0 ≤ mixed.getD i 0)
    rw [hmix i hi]
    unfold INT16_MIN INT16_MAX at *
    unfold wrap16
    constructor <;> intro h5 <;> omega

/-! ## The jump target -/

/-- The product of a size and the fraction 1, converted to `uint32_t`, is the size. -/
theorem float_to_uint32_whole (n : Nat) : float_to_uint32 ((n : ℚ) * 1) = u32 n := by
  unfold float_to_uint32
  rw [mul_one]
  have h : Rat.floor (n : ℚ) = (n : ℤ) := by
    show ⌊(n : ℚ)⌋ = (n : ℤ)
    exact Int.floor_natCast n
  rw [h, Int.toNat_ofNat]

/-- The state after `set_read_position(1)` in mode `PLAY`: the target is the size plus
its remainder modulo 2. -/
theorem set_read_position_whole (s : SD_AUDIO_RECORDER) (h : s.m_mode = MODE.PLAY) :
    set_read_position s 1
      = { s with
          m_jump_pending := true
          m_jump_position :=
            u32 (u32 s.m_play_back_file_size + u32 s.m_play_back_file_size % 2) } := by
  unfold set_read_position
  rw [if_pos h]
  simp only [float_to_uint32_whole]

/-- The target stored by `set_read_position(t)` in mode `PLAY`, for every `t`, with the
product of size and fraction taken exactly: it is never below the computed offset, and
for an odd computed offset it is the offset plus one (offsets below the largest
`uint32_t`). -/
theorem set_read_position_rounds_up (s : SD_AUDIO_RECORDER) (t : ℚ) (h : s.m_mode = MODE.PLAY)
    (hsmall : float_to_uint32 ((s.m_play_back_file_size : ℚ) * t) + 1 < 4294967296) :
    float_to_uint32 ((s.m_play_back_file_size : ℚ) * t)
      ≤ (set_read_position s t).m_jump_position ∧
    (float_to_uint32 ((s.m_play_back_file_size : ℚ) * t) % 2 = 1 →
      (set_read_position s t).m_jump_position
        = float_to_uint32 ((s.m_play_back_file_size : ℚ) * t) + 1) := by
  simp only [set_read_position, h, if_true, u32]
  generalize float_to_uint32 ((s.m_play_back_file_size : ℚ) * t) = fp at hsmall ⊢
  omega

/-- C11 at an odd size. The file played has 7 bytes; `set_read_position(1)` computes the
offset 7 and stores the target 8: the remainder is added, not subtracted, so the target
is above the computed offset and beyond the end of the stream. The seek of the next
tick fails and the jump stays pending. -/
theorem set_read_position_odd_size_beyond_end :
    sample_odd_playing.m_mode = MODE.PLAY ∧
    sample_odd_playing.m_play_back_file_size = 7 ∧
    float_to_uint32 ((sample_odd_playing.m_play_back_file_size : ℚ) * 1) = 7 ∧
    (set_read_position sample_odd_playing 1).m_jump_position = 8 ∧
    File_seek sample_odd_playing.SD sample_odd_playing.m_play_back_audio_file 8 = none ∧
    (update (set_read_position sample_odd_playing 1)).m_jump_pending = true := by
  rw [float_to_uint32_whole, set_read_position_whole _ (by decide)]
  decide

/-! ## The record step and the final drain -/

/-- Appending to a stream of a table: the stream looked up afterwards is the old one
followed by the bytes. -/
theorem lookup_map_append_to (name : String) (bytes : List Nat)
    (files : List (String × List Nat)) :
    (files.map (append_to name bytes)).lookup name
      = (files.lookup name).map (fun c => c ++ bytes) := by
  induction files with
  | nil => rfl
  | cons e rest ih =>
    obtain ⟨k, v⟩ := e
    by_cases hk : name = k
    · subst hk
      have happ : append_to name bytes (name, v) = (name, v ++ bytes) := by
        unfold append_to
        rw [if_pos (by simp)]
      rw [List.map_cons, happ]
      simp [List.lookup]
    · have hne : (name == k) = false := by simpa using hk
      have hfst : (append_to name bytes (k, v)).1 = k := append_to_fst name bytes (k, v)
      rw [List.map_cons]
      generalize append_to name bytes (k, v) = e2 at hfst
      obtain ⟨k2, v2⟩ := e2
      simp only at hfst
      subst hfst
      simp only [List.lookup, hne]
      exact ih

/-- A write through an open handle on a file of the card appends the bytes to the
content of that file. -/
theorem SD_content_File_write (sd : SDClass) (h : File) (bytes : List Nat)
    (hex : (sd.files.lookup h.name).isSome = true) :
    SD_content (File_write sd (some h) bytes) h.name = SD_content sd h.name ++ bytes := by
  unfold SD_content File_write
  simp only [lookup_map_append_to]
  cases hl : sd.files.lookup h.name with
  | none => rw [hl] at hex; exact absurd hex (by simp)
  | some c => rfl

/-- A block of 128 samples is 256 bytes. -/
theorem block_bytes_length (b : audio_block_t) : (block_bytes b).length = 2 * b.data.length := by
  unfold block_bytes
  induction b.data with
  | nil => rfl
  | cons v vs ih =>
    simp only [List.flatMap_cons, List.length_append, List.length_cons, List.length_nil, ih]
    omega

/-- The bytes taken from the oldest entry are all the bytes of its block. -/
theorem take_block_bytes (b : audio_block_t) (hb : b.data.length = AUDIO_BLOCK_SAMPLES) :
    (block_bytes b).take 256 = block_bytes b := by
  apply List.take_of_length_le
  rw [block_bytes_length, hb]
  decide

/-- The draining loop of `stop_recording`, given as many rounds as there are queued
entries or more: the queue ends empty and the record file has received the bytes of
every entry, oldest first. -/
theorem stop_recording_loop_drains (fuel : Nat) : ∀ (s : SD_AUDIO_RECORDER) (h : File),
    s.m_sd_record_queue.queue.length ≤ fuel →
    s.m_recorded_audio_file = some h →
    (s.SD.files.lookup h.name).isSome = true →
    (∀ b ∈ s.m_sd_record_queue.queue, b.data.length = AUDIO_BLOCK_SAMPLES) →
    (stop_recording_loop fuel s).m_sd_record_queue.queue = [] ∧
    SD_content (stop_recording_loop fuel s).SD h.name
      = SD_content s.SD h.name ++ s.m_sd_record_queue.queue.flatMap block_bytes ∧
    (stop_recording_loop fuel s).pool
      = s.m_sd_record_queue.queue.foldl (fun p b => release b p) s.pool := by
  induction fuel with
  | zero =>
    intro s h hlen _ _ _
    have hq : s.m_sd_record_queue.queue = [] := List.length_eq_zero.mp (Nat.le_zero.mp hlen)
    simp [stop_recording_loop, hq]
  | succ n ih =>
    intro s h hlen hf hex hwf
    cases hq : s.m_sd_record_queue.queue with
    | nil => simp [stop_recording_loop, SD_RECORD_QUEUE.available, hq]
    | cons b rest =>
      have hb : b.data.length = AUDIO_BLOCK_SAMPLES := hwf b (by rw [hq]; exact List.mem_cons_self _ _)
      have hstep : stop_recording_loop (n + 1) s
          = stop_recording_loop n
              { s with
                SD := File_write s.SD (some h) (block_bytes b)
                m_sd_record_queue := { s.m_sd_record_queue with queue := rest }
                pool := release b s.pool } := by
        rw [stop_recording_loop]
        simp [SD_RECORD_QUEUE.available, hq, read_buffer_bytes, SD_RECORD_QUEUE.read_buffer,
          release_buffer, hf, take_block_bytes b hb]
      rw [hstep]
      have hex2 : ((File_write s.SD (some h) (block_bytes b)).files.lookup h.name).isSome = true := by
        simp only [File_write, lookup_isSome_map_append]
        exact hex
      obtain ⟨h1, h2, h3⟩ := ih
        { s with
          SD := File_write s.SD (some h) (block_bytes b)
          m_sd_record_queue := { s.m_sd_record_queue with queue := rest }
          pool := release b s.pool } h
        (by rw [hq] at hlen; simpa using hlen) hf hex2
        (fun c hc => hwf c (by rw [hq]; exact List.mem_cons_of_mem _ hc))
      refine ⟨h1, ?_, ?_⟩
      · rw [h2]
        simp only [List.flatMap_cons]
        rw [SD_content_File_write _ _ _ hex, List.append_assoc]
      · rw [h3]
        rfl

/-- The bytes of a queue of whole blocks: 256 for every entry. -/
theorem queue_bytes_length (queue : List audio_block_t)
    (hwf : ∀ b ∈ queue, b.data.length = AUDIO_BLOCK_SAMPLES) :
    (queue.flatMap block_bytes).length = 256 * queue.length := by
  induction queue with
  | nil => rfl
  | cons b rest ih =>
    have hb := hwf b (List.mem_cons_self _ _)
    have hrest := ih (fun c hc => hwf c (List.mem_cons_of_mem _ hc))
    simp only [List.flatMap_cons, List.length_append, List.length_cons, hrest,
      block_bytes_length, hb]
    unfold AUDIO_BLOCK_SAMPLES
    omega

/-- C17. One record step. With fewer than two entries in the capture queue it returns
the state it was given. With two or more, the two oldest entries `b0` and `b1` (whole
blocks) leave the queue and go back to the pool, the entries behind them stay queued,
and the card receives one write through the record handle: the 512 bytes made of the
256 bytes of `b0` followed by the 256 bytes of `b1`. Nothing else changes. -/
theorem update_recording_step (s : SD_AUDIO_RECORDER) :
    (s.m_sd_record_queue.available < 2 → update_recording s = s) ∧
    (∀ b0 b1 rest, s.m_sd_record_queue.queue = b0 :: b1 :: rest →
      b0.data.length = AUDIO_BLOCK_SAMPLES → b1.data.length = AUDIO_BLOCK_SAMPLES →
      update_recording s
        = { s with
            m_sd_record_queue := { s.m_sd_record_queue with queue := rest }
            pool := release b1 (release b0 s.pool)
            SD := File_write s.SD s.m_recorded_audio_file (block_bytes b0 ++ block_bytes b1) } ∧
      (block_bytes b0 ++ block_bytes b1).length = 512 ∧
      (block_bytes b0 ++ block_bytes b1).take 256 = block_bytes b0 ∧
      (block_bytes b0 ++ block_bytes b1).drop 256 = block_bytes b1 ∧
      (∀ h, s.m_recorded_audio_file = some h → (s.SD.files.lookup h.name).isSome = true →
        SD_content (update_recording s).SD h.name
          = SD_content s.SD h.name ++ (block_bytes b0 ++ block_bytes b1))) := by
  constructor
  · intro h
    unfold update_recording
    rw [if_neg (by omega)]
  · intro b0 b1 rest hq h0 h1
    have l0 : (block_bytes b0).length = 256 := by
      rw [block_bytes_length, h0]
      rfl
    have l1 : (block_bytes b1).length = 256 := by
      rw [block_bytes_length, h1]
      rfl
    have hlen : (block_bytes b0 ++ block_bytes b1).length = 512 := by
      rw [List.length_append, l0, l1]
    have hstep : update_recording s
        = { s with
            m_sd_record_queue := { s.m_sd_record_queue with queue := rest }
            pool := release b1 (release b0 s.pool)
            SD := File_write s.SD s.m_recorded_audio_file
              (block_bytes b0 ++ block_bytes b1) } := by
      have hav : s.m_sd_record_queue.available ≥ 2 := by
        unfold SD_RECORD_QUEUE.available
        rw [hq]
        simp
      have htake : (block_bytes b0 ++ block_bytes b1).take 512
          = block_bytes b0 ++ block_bytes b1 :=
        List.take_of_length_le (by rw [hlen])
      unfold update_recording
      rw [if_pos hav]
      simp only [read_buffer_bytes, SD_RECORD_QUEUE.read_buffer, release_buffer, hq,
        List.head?_cons, take_block_bytes b0 h0, take_block_bytes b1 h1, htake]
    refine ⟨hstep, hlen, ?_, ?_, ?_⟩
    · rw [List.take_append_of_le_length (by rw [l0]), List.take_of_length_le (by rw [l0])]
    · rw [List.drop_append_of_le_length (by rw [l0]), List.drop_of_length_le (by rw [l0])]
      rfl
    · intro h hf hex
      rw [hstep, hf]
      exact SD_content_File_write s.SD h _ hex

/-- Witness of C17: with three blocks queued in the first recording pass the two oldest
are written to "RECORD2.RAW" and the third stays queued; with one block queued nothing
happens. -/
theorem update_recording_step_witness :
    update_recording (sample_queued [tone_block 8 1]) = sample_queued [tone_block 8 1] ∧
    (update_recording
      (sample_queued [tone_block 8 1, tone_block 9 2, tone_block 10 3])).m_sd_record_queue.queue
      = [tone_block 10 3] ∧
    SD_content
      (update_recording (sample_queued [tone_block 8 1, tone_block 9 2, tone_block 10 3])).SD
      "RECORD2.RAW"
      = SD_content (sample_queued [tone_block 8 1, tone_block 9 2, tone_block 10 3]).SD
          "RECORD2.RAW"
        ++ (block_bytes (tone_block 8 1) ++ block_bytes (tone_block 9 2)) :=
  have hw := (update_recording_step
    (sample_queued [tone_block 8 1, tone_block 9 2, tone_block 10 3])).2
    (tone_block 8 1) (tone_block 9 2) [tone_block 10 3] (by decide) (by decide) (by decide)
  ⟨(update_recording_step (sample_queued [tone_block 8 1])).1 (by decide),
   by rw [hw.1],
   hw.2.2.2.2 { name := "RECORD2.RAW", pos := 0 } (by decide) (by decide)⟩

/-- The draining loop of `stop_recording`, given as many rounds as there are queued
entries or more, ends with the queue empty, whatever the record handle is. -/
theorem stop_recording_loop_empties (fuel : Nat) : ∀ (s : SD_AUDIO_RECORDER),
    s.m_sd_record_queue.queue.length ≤ fuel →
    (stop_recording_loop fuel s).m_sd_record_queue.queue = [] := by
  induction fuel with
  | zero =>
    intro s hlen
    exact List.length_eq_zero.mp (Nat.le_zero.mp hlen)
  | succ n ih =>
    intro s hlen
    cases hq : s.m_sd_record_queue.queue with
    | nil =>
      rw [stop_recording_loop]
      simp only [SD_RECORD_QUEUE.available, hq, List.length_nil, Nat.lt_irrefl, if_false]
    | cons b rest =>
      rw [stop_recording_loop]
      simp only [SD_RECORD_QUEUE.available, hq, List.length_cons, Nat.zero_lt_succ, if_true,
        release_buffer]
      apply ih
      rw [hq] at hlen
      simpa using hlen

/-- C12. `stop_recording()` in a recording mode, with `k` entries in the capture queue
(any `k`, odd or even, zero included): the drain loop ends with the queue empty and the
record handle is closed. With the record file open and the entries whole blocks, the
record file has received the bytes of the `k` entries, oldest first, `256 * k` bytes in
all. -/
theorem stop_recording_drains (s : SD_AUDIO_RECORDER)
    (hmode : s.m_mode = MODE.RECORD_INITIAL ∨ s.m_mode = MODE.RECORD_PLAY ∨
      s.m_mode = MODE.RECORD_OVERDUB) :
    (stop_recording s).m_sd_record_queue.queue = [] ∧
    (stop_recording s).m_sd_record_queue.available = 0 ∧
    (stop_recording s).m_recorded_audio_file = none ∧
    (∀ h, s.m_recorded_audio_file = some h →
      (s.SD.files.lookup h.name).isSome = true →
      (∀ b ∈ s.m_sd_record_queue.queue, b.data.length = AUDIO_BLOCK_SAMPLES) →
      SD_content (stop_recording s).SD h.name
        = SD_content s.SD h.name ++ s.m_sd_record_queue.queue.flatMap block_bytes ∧
      (s.m_sd_record_queue.queue.flatMap block_bytes).length
        = 256 * s.m_sd_record_queue.queue.length) := by
  have hrec : is_recording s = true := by
    unfold is_recording
    rcases hmode with hmode | hmode | hmode <;> simp [hmode]
  have hrec1 : is_recording { s with m_sd_record_queue := s.m_sd_record_queue.stop } = true := hrec
  have hsr : stop_recording s
      = { stop_recording_loop (SD_RECORD_QUEUE.available (SD_RECORD_QUEUE.stop s.m_sd_record_queue))
            { s with m_sd_record_queue := s.m_sd_record_queue.stop }
          with m_recorded_audio_file := none } := by
    unfold stop_recording
    simp only [hrec1, if_true]
  have h1 := stop_recording_loop_empties
    (SD_RECORD_QUEUE.available (SD_RECORD_QUEUE.stop s.m_sd_record_queue))
    { s with m_sd_record_queue := s.m_sd_record_queue.stop } (Nat.le_refl _)
  rw [hsr]
  refine ⟨h1, ?_, rfl, ?_⟩
  · show List.length _ = 0
    exact List.length_eq_zero.mpr h1
  · intro h hf hex hwf
    obtain ⟨-, h2, -⟩ := stop_recording_loop_drains
      (SD_RECORD_QUEUE.available (SD_RECORD_QUEUE.stop s.m_sd_record_queue))
      { s with m_sd_record_queue := s.m_sd_record_queue.stop } h (Nat.le_refl _) hf hex hwf
    exact ⟨h2, queue_bytes_length _ hwf⟩

/-- Witness of C12: three blocks (an odd number) wait in the queue of the first
recording pass; the record file "RECORD2.RAW" receives their 768 bytes. -/
theorem stop_recording_drains_witness :
    (sample_queued [tone_block 8 1, tone_block 9 2, tone_block 10 3]).m_mode
      = MODE.RECORD_INITIAL ∧
    (sample_queued [tone_block 8 1, tone_block 9 2, tone_block 10 3]).m_recorded_audio_file
      = some { name := "RECORD2.RAW", pos := 0 } ∧
    (stop_recording
      (sample_queued [tone_block 8 1, tone_block 9 2, tone_block 10 3])).m_sd_record_queue.queue
      = [] ∧
    SD_content
      (stop_recording (sample_queued [tone_block 8 1, tone_block 9 2, tone_block 10 3])).SD
      "RECORD2.RAW"
      = SD_content (sample_queued [tone_block 8 1, tone_block 9 2, tone_block 10 3]).SD
          "RECORD2.RAW"
        ++ [tone_block 8 1, tone_block 9 2, tone_block 10 3].flatMap block_bytes ∧
    ([tone_block 8 1, tone_block 9 2, tone_block 10 3].flatMap block_bytes).length = 256 * 3 :=
  have hw := stop_recording_drains
    (sample_queued [tone_block 8 1, tone_block 9 2, tone_block 10 3]) (Or.inl (by decide))
  have hc := hw.2.2.2 { name := "RECORD2.RAW", pos := 0 } (by decide) (by decide) (by decide)
  ⟨by decide, by decide, hw.1, hc.1, hc.2⟩

/-! ## What a tick keeps -/

/-- A tick in mode `PLAY` is the pending jump followed by the rest of the tick. -/
theorem update_play_eq (s : SD_AUDIO_RECORDER) (hm : s.m_mode = MODE.PLAY) :
    update s = play_tick (apply_pending_jump s) := by
  unfold update play_tick apply_pending_jump
  simp only [hm]

/-- A tick in mode `RECORD_PLAY` or `RECORD_OVERDUB`: the playback step, the capture
step, the record step and, at the end of the loop, the exchange of the files. -/
theorem update_record_eq (s : SD_AUDIO_RECORDER)
    (hm : s.m_mode = MODE.RECORD_PLAY ∨ s.m_mode = MODE.RECORD_OVERDUB) :
    update s
      = (if (update_playing s).1 then
           start_recording (start_playing (stop_recording (switch_play_record_buffers
             (update_recording (queue_update (update_playing s).2))))).2
         else update_recording (queue_update (update_playing s).2)) := by
  unfold update
  rcases hm with hm | hm <;> simp only [hm]

/-- Agreement on the control members is reflexive. -/
theorem same_control_refl (s : SD_AUDIO_RECORDER) : same_control s s :=
  ⟨rfl, rfl, rfl, rfl, rfl, rfl⟩

/-- Agreement on the control members is transitive. -/
theorem same_control_trans {s t u : SD_AUDIO_RECORDER} (h1 : same_control s t)
    (h2 : same_control t u) : same_control s u :=
  ⟨h2.1.trans h1.1, h2.2.1.trans h1.2.1, h2.2.2.1.trans h1.2.2.1,
   h2.2.2.2.1.trans h1.2.2.2.1, h2.2.2.2.2.1.trans h1.2.2.2.2.1,
   h2.2.2.2.2.2.trans h1.2.2.2.2.2⟩

/-- The playback step keeps the control members and the card. -/
theorem update_playing_control (s : SD_AUDIO_RECORDER) :
    same_control s (update_playing s).2 ∧ (update_playing s).2.SD = s.SD := by
  unfold update_playing
  cases hp : allocate s.pool with
  | none => exact ⟨same_control_refl s, rfl⟩
  | some r =>
    obtain ⟨block0, pool1⟩ := r
    simp only []
    split <;> split <;> exact ⟨⟨rfl, rfl, rfl, rfl, rfl, rfl⟩, rfl⟩

/-- Member function `aquire_block_func` keeps the control members, the card, the queue;
in `RECORD_PLAY` and `RECORD_OVERDUB` it leaves the hand-off slot empty. -/
theorem aquire_block_func_control (s : SD_AUDIO_RECORDER) :
    same_control s (aquire_block_func s).2 ∧ (aquire_block_func s).2.SD = s.SD ∧
    (aquire_block_func s).2.m_sd_record_queue = s.m_sd_record_queue ∧
    (s.m_mode = MODE.RECORD_PLAY ∨ s.m_mode = MODE.RECORD_OVERDUB →
      (aquire_block_func s).2.m_just_played_block = none) := by
  unfold aquire_block_func
  split
  · exact ⟨⟨rfl, rfl, rfl, rfl, rfl, rfl⟩, rfl, rfl, fun _ => rfl⟩
  · split
    · simp only [receive]
      split <;> exact ⟨⟨rfl, rfl, rfl, rfl, rfl, rfl⟩, rfl, rfl, fun _ => rfl⟩
    · rename_i h1 h2
      refine ⟨⟨rfl, rfl, rfl, rfl, rfl, rfl⟩, rfl, rfl, ?_⟩
      intro h
      rcases h with h | h
      · exact absurd h h1
      · exact absurd h h2

/-- The capture step keeps the control members and the card; in `RECORD_PLAY` and
`RECORD_OVERDUB` it leaves the hand-off slot empty. -/
theorem queue_update_control (s : SD_AUDIO_RECORDER) :
    same_control s (queue_update s) ∧ (queue_update s).SD = s.SD ∧
    (s.m_mode = MODE.RECORD_PLAY ∨ s.m_mode = MODE.RECORD_OVERDUB →
      (queue_update s).m_just_played_block = none) := by
  obtain ⟨h1, h2, -, h4⟩ := aquire_block_func_control s
  unfold queue_update
  simp only []
  split
  · exact ⟨h1, h2, h4⟩
  · split
    · exact ⟨h1, h2, h4⟩
    · exact ⟨h1, h2, h4⟩

/-- The record step keeps the control members, the hand-off slot and the set of files
of the card. -/
theorem update_recording_control (s : SD_AUDIO_RECORDER) :
    same_control s (update_recording s) ∧
    (update_recording s).m_just_played_block = s.m_just_played_block := by
  unfold update_recording
  split
  · exact ⟨⟨rfl, rfl, rfl, rfl, rfl, rfl⟩, rfl⟩
  · exact ⟨same_control_refl s, rfl⟩

/-- Member function `stop_recording` keeps the control members and the hand-off slot. -/
theorem stop_recording_control (s : SD_AUDIO_RECORDER) :
    same_control s (stop_recording s) ∧
    (stop_recording s).m_just_played_block = s.m_just_played_block := by
  obtain ⟨sd, q, pool, f, h, -⟩ := stop_recording_frame s
  rw [h]
  exact ⟨⟨rfl, rfl, rfl, rfl, rfl, rfl⟩, rfl⟩

/-- Member function `start_recording` keeps the control members and the hand-off slot. -/
theorem start_recording_control (s : SD_AUDIO_RECORDER) :
    same_control s (start_recording s) ∧
    (start_recording s).m_just_played_block = s.m_just_played_block := by
  obtain ⟨sd, f, q, pool, h⟩ := start_recording_frame s
  rw [h]
  exact ⟨⟨rfl, rfl, rfl, rfl, rfl, rfl⟩, rfl⟩

/-- Member function `start_playing` keeps the control members, the card and the hand-off
slot. -/
theorem start_playing_control (s : SD_AUDIO_RECORDER) :
    same_control s (start_playing s).2 ∧ (start_playing s).2.SD = s.SD ∧
    (start_playing s).2.m_just_played_block = s.m_just_played_block := by
  obtain ⟨g, hg⟩ := stop_playing_frame s
  unfold start_playing
  simp only [hg]
  split <;> exact ⟨⟨rfl, rfl, rfl, rfl, rfl, rfl⟩, rfl, rfl⟩

/-! ## Sequences of commands and ticks -/

/-- The roles after `start_record()` from `STOP`: the mode is `RECORD_INITIAL`, the first
slot is the playback file and the second the record file. -/
theorem start_record_from_stop (s : SD_AUDIO_RECORDER) (h : s.m_mode = MODE.STOP) :
    (start_record s).m_mode = MODE.RECORD_INITIAL ∧
    (start_record s).m_play_back_filename = RECORDING_FILENAME1 ∧
    (start_record s).m_record_filename = RECORDING_FILENAME2 := by
  have hc := (start_recording_control
    { s with m_play_back_filename := RECORDING_FILENAME1
             m_record_filename := RECORDING_FILENAME2 }).1
  have hs : start_record s
      = { start_recording
            { s with m_play_back_filename := RECORDING_FILENAME1
                     m_record_filename := RECORDING_FILENAME2 }
          with m_mode := MODE.RECORD_INITIAL } := by
    simp only [start_record, h]
  rw [hs]
  exact ⟨rfl, hc.2.1, hc.2.2.1⟩

/-- The roles after `stop_record()` from `RECORD_INITIAL`: the mode is `RECORD_PLAY` and
the two filenames are exchanged. -/
theorem stop_record_from_initial (s : SD_AUDIO_RECORDER) (h : s.m_mode = MODE.RECORD_INITIAL) :
    (stop_record s).m_mode = MODE.RECORD_PLAY ∧
    (stop_record s).m_play_back_filename = s.m_record_filename ∧
    (stop_record s).m_record_filename = s.m_play_back_filename := by
  have h1 := (stop_recording_control s).1
  have h3 := (start_playing_control (switch_play_record_buffers (stop_recording s))).1
  have h4 := (start_recording_control
    (start_playing (switch_play_record_buffers (stop_recording s))).2).1
  have hs : stop_record s
      = { start_recording (start_playing (switch_play_record_buffers (stop_recording s))).2
          with m_mode := MODE.RECORD_PLAY } := by
    simp only [stop_record, h]
  rw [hs]
  refine ⟨rfl, ?_, ?_⟩
  · show (start_recording _).m_play_back_filename = _
    rw [h4.2.1, h3.2.1]
    exact h1.2.2.1
  · show (start_recording _).m_record_filename = _
    rw [h4.2.2.1, h3.2.2.1]
    exact h1.2.1

/-- The state after `start_record()` from `RECORD_PLAY`: only the mode changes. -/
theorem start_record_from_record_play (s : SD_AUDIO_RECORDER) (h : s.m_mode = MODE.RECORD_PLAY) :
    start_record s = { s with m_mode := MODE.RECORD_OVERDUB } := by
  unfold start_record
  simp only [h]

/-- The state after `stop_record()` from `RECORD_OVERDUB`: only the mode changes. -/
theorem stop_record_from_overdub (s : SD_AUDIO_RECORDER) (h : s.m_mode = MODE.RECORD_OVERDUB) :
    stop_record s = { s with m_mode := MODE.RECORD_PLAY } := by
  unfold stop_record
  simp only [h]

/-- A tick in `RECORD_PLAY` or `RECORD_OVERDUB`: the mode stays, the hand-off slot ends
empty, and the filenames are exchanged when the playback step reports the end of the
loop and kept when it does not. -/
theorem update_record_roles (s : SD_AUDIO_RECORDER)
    (hm : s.m_mode = MODE.RECORD_PLAY ∨ s.m_mode = MODE.RECORD_OVERDUB) :
    (update s).m_mode = s.m_mode ∧
    (update s).m_just_played_block = none ∧
    ((update_playing s).1 = true →
      (update s).m_play_back_filename = s.m_record_filename ∧
      (update s).m_record_filename = s.m_play_back_filename) ∧
    ((update_playing s).1 = false →
      (update s).m_play_back_filename = s.m_play_back_filename ∧
      (update s).m_record_filename = s.m_record_filename) := by
  have ha := (update_playing_control s).1
  obtain ⟨hb, -, hbj⟩ := queue_update_control (update_playing s).2
  have hbj2 := hbj (by rw [ha.1]; exact hm)
  obtain ⟨hc, hcj⟩ := update_recording_control (queue_update (update_playing s).2)
  have habc := same_control_trans (same_control_trans ha hb) hc
  rw [hbj2] at hcj
  rw [update_record_eq s hm]
  cases hfin : (update_playing s).1
  · simp only [Bool.false_eq_true, if_false, false_implies, true_and, true_implies]
    exact ⟨habc.1, hcj, habc.2.1, habc.2.2.1⟩
  · simp only [if_true, true_implies, Bool.true_eq_false, false_implies, and_true]
    generalize update_recording (queue_update (update_playing s).2) = c at habc hcj
    obtain ⟨hd, hdj⟩ := stop_recording_control (switch_play_record_buffers c)
    obtain ⟨he, -, hej⟩ := start_playing_control (stop_recording (switch_play_record_buffers c))
    obtain ⟨hf, hfj⟩ := start_recording_control
      (start_playing (stop_recording (switch_play_record_buffers c))).2
    have hdef := same_control_trans (same_control_trans hd he) hf
    refine ⟨?_, ?_, ?_, ?_⟩
    · rw [hdef.1]
      exact habc.1
    · rw [hfj, hej, hdj]
      exact hcj
    · rw [hdef.2.1]
      exact habc.2.2.1
    · rw [hdef.2.2.1]
      exact habc.2.1

/-- C14. A tick in `RECORD_PLAY` or `RECORD_OVERDUB` leaves the mode as it was. When the
playback step of the tick reports the end of the loop the playback and record
filenames are exchanged, so two ticks that both report it give back the original pair;
when it does not, the filenames are kept. -/
theorem update_record_swap (s : SD_AUDIO_RECORDER)
    (hm : s.m_mode = MODE.RECORD_PLAY ∨ s.m_mode = MODE.RECORD_OVERDUB) :
    (update s).m_mode = s.m_mode ∧
    ((update_playing s).1 = true →
      (update s).m_play_back_filename = s.m_record_filename ∧
      (update s).m_record_filename = s.m_play_back_filename) ∧
    ((update_playing s).1 = false →
      (update s).m_play_back_filename = s.m_play_back_filename ∧
      (update s).m_record_filename = s.m_record_filename) ∧
    ((update_playing s).1 = true → (update_playing (update s)).1 = true →
      (update (update s)).m_play_back_filename = s.m_play_back_filename ∧
      (update (update s)).m_record_filename = s.m_record_filename) := by
  obtain ⟨h1, -, h3, h4⟩ := update_record_roles s hm
  refine ⟨h1, h3, h4, ?_⟩
  intro hf1 hf2
  obtain ⟨-, -, k3, -⟩ := update_record_roles (update s) (by rw [h1]; exact hm)
  obtain ⟨a, b⟩ := h3 hf1
  obtain ⟨c, d⟩ := k3 hf2
  exact ⟨c.trans b, d.trans a⟩

/-- Witness of C14: the tick at the end of the first pass over the sample loop reports the
end of the loop and exchanges the filenames; the mode stays `RECORD_PLAY`. -/
theorem update_record_swap_witness :
    sample_loop_end.m_mode = MODE.RECORD_PLAY ∧
    (update_playing sample_loop_end).1 = true ∧
    sample_loop_end.m_play_back_filename = "RECORD2.RAW" ∧
    sample_loop_end.m_record_filename = "RECORD1.RAW" ∧
    (update sample_loop_end).m_mode = sample_loop_end.m_mode ∧
    (update sample_loop_end).m_play_back_filename = sample_loop_end.m_record_filename ∧
    (update sample_loop_end).m_record_filename = sample_loop_end.m_play_back_filename :=
  have hw := update_record_swap sample_loop_end (Or.inl (by decide))
  ⟨by decide, by decide, by decide, by decide, hw.1, (hw.2.1 (by decide)).1,
    (hw.2.1 (by decide)).2⟩

/-! ## The hand-off in `RECORD_PLAY` -/

/-- C18. In `RECORD_PLAY` with the hand-off slot occupied, `aquire_block_func()` returns
the block of the slot itself, samples and pool slot untouched, and changes nothing but
the slot, which it leaves empty: the input slot is not read, nothing is mixed. The
capture step of a tick in `RECORD_PLAY` therefore leaves the slot empty, and so does
the whole tick, before the playback step of the next tick. -/
theorem aquire_block_func_hands_over (s : SD_AUDIO_RECORDER) (b : audio_block_t)
    (hm : s.m_mode = MODE.RECORD_PLAY) (hb : s.m_just_played_block = some b) :
    (aquire_block_func s).1 = some b ∧
    (aquire_block_func s).2 = { s with m_just_played_block := none } ∧
    (aquire_block_func s).2.m_just_played_block = none ∧
    (queue_update s).m_just_played_block = none ∧
    (update s).m_just_played_block = none := by
  refine ⟨?_, ?_, ?_, ?_, ?_⟩
  · unfold aquire_block_func
    rw [if_pos hm]
    exact hb
  · unfold aquire_block_func
    rw [if_pos hm]
  · unfold aquire_block_func
    rw [if_pos hm]
  · exact (queue_update_control s).2.2 (Or.inl hm)
  · exact (update_record_roles s (Or.inl hm)).2.1

/-- Witness of C18: the played block of value 2 waits in the slot of the recorder in
`RECORD_PLAY`, a live block of value 100 in the input slot; the block returned is the
played block, and the live block stays where it is. -/
theorem aquire_block_func_hands_over_witness :
    (stop_record (sample_overdub 2 100)).m_mode = MODE.RECORD_PLAY ∧
    (stop_record (sample_overdub 2 100)).m_just_played_block = some (tone_block 5 2) ∧
    (aquire_block_func (stop_record (sample_overdub 2 100))).1 = some (tone_block 5 2) ∧
    (aquire_block_func (stop_record (sample_overdub 2 100))).2
      = { stop_record (sample_overdub 2 100) with m_just_played_block := none } ∧
    (update (stop_record (sample_overdub 2 100))).m_just_played_block = none :=
  have hw := aquire_block_func_hands_over (stop_record (sample_overdub 2 100))
    (tone_block 5 2) (by decide) (by decide)
  ⟨by decide, by decide, hw.1, hw.2.1, hw.2.2.2.2⟩

/-! ## A tick in mode `PLAY` -/

/-- The pending jump keeps the mode, the filenames, the looping flag, the target and the
card. -/
theorem apply_pending_jump_frame (s : SD_AUDIO_RECORDER) :
    (apply_pending_jump s).m_mode = s.m_mode ∧
    (apply_pending_jump s).m_play_back_filename = s.m_play_back_filename ∧
    (apply_pending_jump s).m_record_filename = s.m_record_filename ∧
    (apply_pending_jump s).m_looping = s.m_looping ∧
    (apply_pending_jump s).m_jump_position = s.m_jump_position ∧
    (apply_pending_jump s).SD = s.SD := by
  unfold apply_pending_jump
  split
  · split <;> exact ⟨rfl, rfl, rfl, rfl, rfl, rfl⟩
  · exact ⟨rfl, rfl, rfl, rfl, rfl, rfl⟩

/-- The rest of a tick in mode `PLAY`: what it keeps, and how it ends. -/
theorem play_tick_frame (s1 : SD_AUDIO_RECORDER) :
    (play_tick s1).m_play_back_filename = s1.m_play_back_filename ∧
    (play_tick s1).m_record_filename = s1.m_record_filename ∧
    (play_tick s1).m_looping = s1.m_looping ∧
    (play_tick s1).m_jump_pending = s1.m_jump_pending ∧
    (play_tick s1).m_jump_position = s1.m_jump_position ∧
    (play_tick s1).SD = s1.SD ∧
    ((update_playing s1).1 = false → (play_tick s1).m_mode = s1.m_mode) ∧
    ((update_playing s1).1 = true → s1.m_looping = false → (play_tick s1).m_mode = MODE.STOP) ∧
    ((update_playing s1).1 = true → s1.m_looping = true →
      (play_tick s1).m_mode = MODE.PLAY ∧
      (SD_exists s1.SD s1.m_play_back_filename = true →
        (play_tick s1).m_play_back_file_offset = 0 ∧
        (play_tick s1).m_play_back_audio_file
          = some { name := s1.m_play_back_filename, pos := 0 })) := by
  obtain ⟨ha, hasd⟩ := update_playing_control s1
  obtain ⟨hb, hbsd, -⟩ := queue_update_control (update_playing s1).2
  have hab := same_control_trans ha hb
  have hsd : (queue_update (update_playing s1).2).SD = s1.SD := hbsd.trans hasd
  cases hfin : (update_playing s1).1
  · have hpt : play_tick s1 = queue_update (update_playing s1).2 := by
      unfold play_tick
      simp only [hfin, Bool.false_eq_true, if_false]
    rw [hpt]
    exact ⟨hab.2.1, hab.2.2.1, hab.2.2.2.1, hab.2.2.2.2.1, hab.2.2.2.2.2, hsd,
      fun _ => hab.1, fun h => Bool.noConfusion h, fun h => Bool.noConfusion h⟩
  · cases hl : s1.m_looping
    · have hl2 : (queue_update (update_playing s1).2).m_looping = false :=
        hab.2.2.2.1.trans hl
      have hpt : play_tick s1
          = { queue_update (update_playing s1).2 with m_mode := MODE.STOP } := by
        unfold play_tick
        simp only [hfin, hl2, if_true, Bool.false_eq_true, if_false]
      rw [hpt]
      exact ⟨hab.2.1, hab.2.2.1, hl2, hab.2.2.2.2.1, hab.2.2.2.2.2, hsd,
        fun h => Bool.noConfusion h, fun _ _ => rfl, fun _ h => Bool.noConfusion h⟩
    · have hl2 : (queue_update (update_playing s1).2).m_looping = true :=
        hab.2.2.2.1.trans hl
      have hpt : play_tick s1
          = { (start_playing (queue_update (update_playing s1).2)).2
              with m_mode := MODE.PLAY } := by
        unfold play_tick
        simp only [hfin, hl2, if_true]
      rw [hpt]
      generalize queue_update (update_playing s1).2 = s2 at hab hsd hl2
      obtain ⟨hc, hcsd, -⟩ := start_playing_control s2
      have hac := same_control_trans hab hc
      refine ⟨hac.2.1, hac.2.2.1, hc.2.2.2.1.trans hl2, hac.2.2.2.2.1, hac.2.2.2.2.2,
        hcsd.trans hsd, fun h => Bool.noConfusion h, fun _ h => Bool.noConfusion h,
        fun _ _ => ⟨rfl, ?_⟩⟩
      intro hex
      have hex2 : SD_exists s2.SD s2.m_play_back_filename = true := by
        rw [hsd, hab.2.1]
        exact hex
      have hopen : SD_open s2.SD s2.m_play_back_filename
          = some { name := s1.m_play_back_filename, pos := 0 } := by
        unfold SD_open
        rw [if_pos hex2, hab.2.1]
      obtain ⟨g, hg⟩ := stop_playing_frame s2
      show (start_playing s2).2.m_play_back_file_offset = 0 ∧
        (start_playing s2).2.m_play_back_audio_file = _
      unfold start_playing
      simp only [hg, hopen]
      exact ⟨rfl, rfl⟩

/-- C16. A tick in mode `PLAY` with a jump pending applies the jump first, then runs the
rest of the tick on the outcome. If the seek to the target succeeds, the playback step
starts from the moved handle with the offset set to the target and the flag cleared,
and the flag is clear after the tick. If the seek fails, the playback step starts from
the state as it was (offset and handle untouched), and after the tick the flag is still
set and the target kept. -/
theorem update_pending_jump (s : SD_AUDIO_RECORDER)
    (hm : s.m_mode = MODE.PLAY) (hp : s.m_jump_pending = true) :
    update s = play_tick (apply_pending_jump s) ∧
    (∀ h, File_seek s.SD s.m_play_back_audio_file s.m_jump_position = some h →
      apply_pending_jump s
        = { s with
            m_play_back_audio_file := some h
            m_jump_pending := false
            m_play_back_file_offset := s.m_jump_position } ∧
      (update s).m_jump_pending = false) ∧
    (File_seek s.SD s.m_play_back_audio_file s.m_jump_position = none →
      apply_pending_jump s = s ∧
      (update s).m_jump_pending = true ∧
      (update s).m_jump_position = s.m_jump_position) := by
  have hu := update_play_eq s hm
  have hk := play_tick_frame (apply_pending_jump s)
  refine ⟨hu, ?_, ?_⟩
  · intro h hseek
    have ha : apply_pending_jump s
        = { s with
            m_play_back_audio_file := some h
            m_jump_pending := false
            m_play_back_file_offset := s.m_jump_position } := by
      unfold apply_pending_jump
      simp only [hp, if_true, hseek]
    refine ⟨ha, ?_⟩
    rw [hu, hk.2.2.2.1, ha]
  · intro hseek
    have ha : apply_pending_jump s = s := by
      unfold apply_pending_jump
      simp only [hp, if_true, hseek]
    refine ⟨ha, ?_, ?_⟩
    · rw [hu, hk.2.2.2.1, ha]
      exact hp
    · rw [hu, hk.2.2.2.2.1, ha]

/-- Witness of C16: a jump to offset 4 of the six-byte sample loop succeeds, a jump to
offset 8 fails. -/
theorem update_pending_jump_witness :
    (sample_jump 4).m_mode = MODE.PLAY ∧ (sample_jump 4).m_jump_pending = true ∧
    File_seek (sample_jump 4).SD (sample_jump 4).m_play_back_audio_file 4
      = some { name := "RECORD1.RAW", pos := 4 } ∧
    (update (sample_jump 4)).m_jump_pending = false ∧
    File_seek (sample_jump 8).SD (sample_jump 8).m_play_back_audio_file 8 = none ∧
    (update (sample_jump 8)).m_jump_pending = true ∧
    (update (sample_jump 8)).m_jump_position = 8 :=
  have h4 := (update_pending_jump (sample_jump 4) (by decide) (by decide)).2.1
    { name := "RECORD1.RAW", pos := 4 } (by decide)
  have h8 := (update_pending_jump (sample_jump 8) (by decide) (by decide)).2.2 (by decide)
  ⟨by decide, by decide, by decide, h4.2, by decide, h8.2.1, h8.2.2⟩

/-! ## The role filenames -/

/-- Member function `start_record()` outside `STOP` and `RECORD_PLAY` returns the state it
was given. -/
theorem start_record_other (s : SD_AUDIO_RECORDER)
    (h1 : s.m_mode ≠ MODE.STOP) (h2 : s.m_mode ≠ MODE.RECORD_PLAY) : start_record s = s := by
  unfold start_record
  split <;> simp_all

/-- Member function `stop_record()` outside `RECORD_INITIAL` and `RECORD_OVERDUB` returns
the state it was given. -/
theorem stop_record_other (s : SD_AUDIO_RECORDER)
    (h1 : s.m_mode ≠ MODE.RECORD_INITIAL) (h2 : s.m_mode ≠ MODE.RECORD_OVERDUB) :
    stop_record s = s := by
  unfold stop_record
  split <;> simp_all

/-- Member function `set_read_position(t)` keeps the mode, the filenames and the card. -/
theorem set_read_position_frame (s : SD_AUDIO_RECORDER) (t : ℚ) :
    (set_read_position s t).m_mode = s.m_mode ∧
    (set_read_position s t).m_play_back_filename = s.m_play_back_filename ∧
    (set_read_position s t).m_record_filename = s.m_record_filename ∧
    (set_read_position s t).SD = s.SD := by
  unfold set_read_position
  split <;> exact ⟨rfl, rfl, rfl, rfl⟩

/-- A tick in `STOP` returns the state it was given. -/
theorem update_stop (s : SD_AUDIO_RECORDER) (h : s.m_mode = MODE.STOP) : update s = s := by
  unfold update
  simp only [h]

/-- A tick in `RECORD_INITIAL` keeps the control members. -/
theorem update_initial_control (s : SD_AUDIO_RECORDER) (h : s.m_mode = MODE.RECORD_INITIAL) :
    same_control s (update s) := by
  have hu : update s = update_recording (queue_update s) := by
    unfold update
    simp only [h]
  rw [hu]
  exact same_control_trans (queue_update_control s).1 (update_recording_control _).1

/-- A tick in `PLAY` keeps the filenames and the card and ends in `PLAY` or `STOP`. -/
theorem update_play_roles (s : SD_AUDIO_RECORDER) (h : s.m_mode = MODE.PLAY) :
    (update s).m_play_back_filename = s.m_play_back_filename ∧
    (update s).m_record_filename = s.m_record_filename ∧
    (update s).SD = s.SD ∧
    ((update s).m_mode = MODE.PLAY ∨ (update s).m_mode = MODE.STOP) := by
  obtain ⟨j1, j2, j3, -, -, j6⟩ := apply_pending_jump_frame s
  obtain ⟨k1, k2, -, -, -, k6, k7, k8, k9⟩ := play_tick_frame (apply_pending_jump s)
  rw [update_play_eq s h]
  refine ⟨k1.trans j2, k2.trans j3, k6.trans j6, ?_⟩
  cases hfin : (update_playing (apply_pending_jump s)).1
  · left
    rw [k7 hfin, j1]
    exact h
  · cases hl : (apply_pending_jump s).m_looping
    · right
      exact k8 hfin hl
    · left
      exact (k9 hfin hl).1

/-- The roles after `play_file(filename, loop)`: the mode is `PLAY` or `STOP`, in `PLAY`
the playback file is on the card, the playback filename is `filename` and the record
filename is kept. -/
theorem play_file_roles (s : SD_AUDIO_RECORDER) (filename : String) (loop : Bool) :
    ((play_file s filename loop).m_mode = MODE.PLAY ∨
      (play_file s filename loop).m_mode = MODE.STOP) ∧
    ((play_file s filename loop).m_mode = MODE.PLAY →
      SD_exists (play_file s filename loop).SD filename = true) ∧
    (play_file s filename loop).m_play_back_filename = filename ∧
    (play_file s filename loop).m_record_filename = s.m_record_filename := by
  have key : ∃ s2 : SD_AUDIO_RECORDER,
      play_file s filename loop
        = (if (start_playing s2).1 then { (start_playing s2).2 with m_mode := MODE.PLAY }
           else { (start_playing s2).2 with m_mode := MODE.STOP }) ∧
      s2.m_play_back_filename = filename ∧
      s2.m_record_filename = s.m_record_filename := by
    unfold play_file
    simp only []
    split
    · obtain ⟨sd, q, pool, f, g, h, -⟩ := stop_current_mode_false_frame
        { s with m_play_back_filename := filename, m_looping := loop }
      refine ⟨_, rfl, ?_, ?_⟩ <;> rw [h]
    · exact ⟨_, rfl, rfl, rfl⟩
  obtain ⟨s2, hpf, hn, hr⟩ := key
  obtain ⟨h1, -, -, h4, h5, -, h7, -⟩ := start_playing_frame s2
  rw [hpf]
  cases hb : (start_playing s2).1
  · rw [if_neg Bool.false_ne_true]
    refine ⟨Or.inr rfl, fun h => MODE.noConfusion h, h4.trans hn, h5.trans hr⟩
  · rw [if_pos rfl]
    refine ⟨Or.inl rfl, fun _ => ?_, h4.trans hn, h5.trans hr⟩
    show SD_exists (start_playing s2).2.SD filename = true
    rw [h7]
    rw [hb, hn] at h1
    unfold SD_open at h1
    by_cases hex : SD_exists s2.SD filename = true
    · exact hex
    · rw [if_neg hex] at h1
      exact absurd h1 (by simp)

/-- The roles after `stop()`: mode `STOP`, both filenames the first slot. -/
theorem stop_roles (s : SD_AUDIO_RECORDER) :
    (stop s).m_mode = MODE.STOP ∧
    (stop s).m_play_back_filename = RECORDING_FILENAME1 ∧
    (stop s).m_record_filename = RECORDING_FILENAME1 := by
  simp [stop, stop_current_mode]

/-- Recording modes, spelled out. -/
theorem is_recording_iff (s : SD_AUDIO_RECORDER) :
    is_recording s = true ↔
      (s.m_mode = MODE.RECORD_INITIAL ∨ s.m_mode = MODE.RECORD_PLAY ∨
        s.m_mode = MODE.RECORD_OVERDUB) := by
  unfold is_recording
  simp [or_assoc]

/-- The two slots have different names. -/
theorem slots_differ : RECORDING_FILENAME1 ≠ RECORDING_FILENAME2 := by decide

/-- The invariant of the roles carries over to a state with the same mode, filenames
and card. -/
theorem roles_ok_of_same (s t : SD_AUDIO_RECORDER) (h : roles_ok s)
    (hm : t.m_mode = s.m_mode) (hp : t.m_play_back_filename = s.m_play_back_filename)
    (hr : t.m_record_filename = s.m_record_filename)
    (hsd : s.m_mode = MODE.PLAY → SD_exists t.SD s.m_play_back_filename = true) :
    roles_ok t := by
  obtain ⟨h1, h2, h3, h4⟩ := h
  refine ⟨by rw [hp]; exact h1, by rw [hr]; exact h2, ?_, ?_⟩
  · intro hrec
    rw [hp, hr]
    apply h3
    rw [is_recording_iff] at hrec ⊢
    rw [hm] at hrec
    exact hrec
  · intro hpl
    rw [hp]
    exact hsd (hm ▸ hpl)

/-- Every reachable state satisfies the invariant of the roles. -/
theorem reachable_roles_ok (s : SD_AUDIO_RECORDER) (h : Reachable s) : roles_ok s := by
  induction h with
  | init sd pool =>
    exact ⟨Or.inl rfl, Or.inl rfl, fun h => Bool.noConfusion h, fun h => MODE.noConfusion h⟩
  | @play s _ ih =>
    obtain ⟨p1, p2, p3, p4⟩ := play_file_roles s s.m_play_back_filename true
    have hplay : play s = play_file s s.m_play_back_filename true := rfl
    rw [hplay]
    refine ⟨by rw [p3]; exact ih.1, by rw [p4]; exact ih.2.1, ?_, ?_⟩
    · intro hrec
      rw [is_recording_iff] at hrec
      rcases p1 with p1 | p1 <;> rw [p1] at hrec <;> simp at hrec
    · intro hpl
      rw [p3]
      exact p2 hpl
  | @stop s _ ih =>
    obtain ⟨q1, q2, q3⟩ := stop_roles s
    refine ⟨Or.inl q2, Or.inl q3, ?_, ?_⟩
    · intro hrec
      rw [is_recording_iff, q1] at hrec
      simp at hrec
    · intro hpl
      rw [q1] at hpl
      exact MODE.noConfusion hpl
  | @start_record s _ ih =>
    by_cases h1 : s.m_mode = MODE.STOP
    · obtain ⟨a1, a2, a3⟩ := start_record_from_stop s h1
      refine ⟨Or.inl a2, Or.inr a3, ?_, ?_⟩
      · intro _
        rw [a2, a3]
        exact slots_differ
      · intro hpl
        rw [a1] at hpl
        exact MODE.noConfusion hpl
    · by_cases h2 : s.m_mode = MODE.RECORD_PLAY
      · rw [start_record_from_record_play s h2]
        refine ⟨ih.1, ih.2.1, fun _ => ?_, fun hpl => MODE.noConfusion hpl⟩
        exact ih.2.2.1 ((is_recording_iff s).mpr (Or.inr (Or.inl h2)))
      · rw [start_record_other s h1 h2]
        exact ih
  | @stop_record s _ ih =>
    by_cases h1 : s.m_mode = MODE.RECORD_INITIAL
    · obtain ⟨b1, b2, b3⟩ := stop_record_from_initial s h1
      refine ⟨by rw [b2]; exact ih.2.1, by rw [b3]; exact ih.1, ?_, ?_⟩
      · intro _
        rw [b2, b3]
        exact fun e => ih.2.2.1 ((is_recording_iff s).mpr (Or.inl h1)) e.symm
      · intro hpl
        rw [b1] at hpl
        exact MODE.noConfusion hpl
    · by_cases h2 : s.m_mode = MODE.RECORD_OVERDUB
      · rw [stop_record_from_overdub s h2]
        refine ⟨ih.1, ih.2.1, fun _ => ?_, fun hpl => MODE.noConfusion hpl⟩
        exact ih.2.2.1 ((is_recording_iff s).mpr (Or.inr (Or.inr h2)))
      · rw [stop_record_other s h1 h2]
        exact ih
  | @set_read_position s t _ ih =>
    obtain ⟨c1, c2, c3, c4⟩ := set_read_position_frame s t
    exact roles_ok_of_same s _ ih c1 c2 c3 (fun hpl => by rw [c4]; exact ih.2.2.2 hpl)
  | @update s _ ih =>
    cases hm : s.m_mode with
    | STOP =>
      rw [update_stop s hm]
      exact ih
    | PLAY =>
      obtain ⟨d1, d2, d3, d4⟩ := update_play_roles s hm
      refine ⟨by rw [d1]; exact ih.1, by rw [d2]; exact ih.2.1, ?_, ?_⟩
      · intro hrec
        rw [is_recording_iff] at hrec
        rcases d4 with d4 | d4 <;> rw [d4] at hrec <;> simp at hrec
      · intro _
        rw [d1, d3]
        exact ih.2.2.2 hm
    | RECORD_INITIAL =>
      have hc := update_initial_control s hm
      exact roles_ok_of_same s _ ih hc.1 hc.2.1 hc.2.2.1
        (fun hpl => by rw [hm] at hpl; exact MODE.noConfusion hpl)
    | RECORD_PLAY =>
      obtain ⟨e1, -, e3, e4⟩ := update_record_roles s (Or.inl hm)
      have hdiff := ih.2.2.1 ((is_recording_iff s).mpr (Or.inr (Or.inl hm)))
      cases hfin : (update_playing s).1
      · obtain ⟨f1, f2⟩ := e4 hfin
        exact roles_ok_of_same s _ ih e1 f1 f2
          (fun hpl => by rw [hm] at hpl; exact MODE.noConfusion hpl)
      · obtain ⟨f1, f2⟩ := e3 hfin
        refine ⟨by rw [f1]; exact ih.2.1, by rw [f2]; exact ih.1, ?_, ?_⟩
        · intro _
          rw [f1, f2]
          exact fun e => hdiff e.symm
        · intro hpl
          rw [e1, hm] at hpl
          exact MODE.noConfusion hpl
    | RECORD_OVERDUB =>
      obtain ⟨e1, -, e3, e4⟩ := update_record_roles s (Or.inr hm)
      have hdiff := ih.2.2.1 ((is_recording_iff s).mpr (Or.inr (Or.inr hm)))
      cases hfin : (update_playing s).1
      · obtain ⟨f1, f2⟩ := e4 hfin
        exact roles_ok_of_same s _ ih e1 f1 f2
          (fun hpl => by rw [hm] at hpl; exact MODE.noConfusion hpl)
      · obtain ⟨f1, f2⟩ := e3 hfin
        refine ⟨by rw [f1]; exact ih.2.1, by rw [f2]; exact ih.1, ?_, ?_⟩
        · intro _
          rw [f1, f2]
          exact fun e => hdiff e.symm
        · intro hpl
          rw [e1, hm] at hpl
          exact MODE.noConfusion hpl
  | @feed s b _ ih =>
    exact roles_ok_of_same s _ ih rfl rfl rfl (fun hpl => ih.2.2.2 hpl)

/-- C15. A tick in mode `PLAY`. When the playback step reports the end of the stream and
the looping flag is set, the tick ends in `PLAY`, and the playback file is reopened
with the offset 0; the reopening needs the file to be on the card, which is so in every
reachable state in `PLAY`. When the step reports the end and the flag is clear, the
tick ends in `STOP`. When it does not report the end, the mode stays `PLAY`. -/
theorem update_play_loop_end (s : SD_AUDIO_RECORDER) (hm : s.m_mode = MODE.PLAY) :
    ((update_playing (apply_pending_jump s)).1 = true → s.m_looping = true →
      (update s).m_mode = MODE.PLAY) ∧
    ((update_playing (apply_pending_jump s)).1 = true → s.m_looping = true →
      (Reachable s ∨ SD_exists s.SD s.m_play_back_filename = true) →
      (update s).m_play_back_file_offset = 0 ∧
      (update s).m_play_back_audio_file = some { name := s.m_play_back_filename, pos := 0 }) ∧
    ((update_playing (apply_pending_jump s)).1 = true → s.m_looping = false →
      (update s).m_mode = MODE.STOP) ∧
    ((update_playing (apply_pending_jump s)).1 = false → (update s).m_mode = MODE.PLAY) := by
  obtain ⟨j1, j2, -, j4, -, j6⟩ := apply_pending_jump_frame s
  obtain ⟨-, -, -, -, -, -, k7, k8, k9⟩ := play_tick_frame (apply_pending_jump s)
  rw [update_play_eq s hm]
  refine ⟨?_, ?_, ?_, ?_⟩
  · intro hfin hl
    exact (k9 hfin (j4.trans hl)).1
  · intro hfin hl hfile
    have hfile2 : SD_exists s.SD s.m_play_back_filename = true := by
      rcases hfile with hr | hf
      · exact (reachable_roles_ok s hr).2.2.2 hm
      · exact hf
    have hex : SD_exists (apply_pending_jump s).SD (apply_pending_jump s).m_play_back_filename
        = true := by
      rw [j6, j2]
      exact hfile2
    obtain ⟨m3, m4⟩ := (k9 hfin (j4.trans hl)).2 hex
    rw [j2] at m4
    exact ⟨m3, m4⟩
  · intro hfin hl
    exact k8 hfin (j4.trans hl)
  · intro hfin
    rw [k7 hfin, j1]
    exact hm

/-- Witness of C15: the second tick of the looping sample loop (a reachable state)
restarts it, the second tick of the sample loop played once stops, and the first tick
stays in `PLAY`. -/
theorem update_play_loop_end_witness :
    (update sample_playing).m_mode = MODE.PLAY ∧
    (update sample_playing).m_looping = true ∧
    (update (update sample_playing)).m_mode = MODE.PLAY ∧
    (update (update sample_playing)).m_play_back_file_offset = 0 ∧
    (update sample_play_once).m_looping = false ∧
    (update (update sample_play_once)).m_mode = MODE.STOP ∧
    (update sample_playing).m_mode = MODE.PLAY :=
  have hr : Reachable (update sample_playing) :=
    Reachable.update (Reachable.play (Reachable.init sample_card _))
  have h1 := (update_play_loop_end (update sample_playing) (by decide)).1
    (by decide) (by decide)
  have h2 := (update_play_loop_end (update sample_playing) (by decide)).2.1
    (by decide) (by decide) (Or.inl hr)
  have h3 := (update_play_loop_end (update sample_play_once) (by decide)).2.2.1
    (by decide) (by decide)
  have h4 := (update_play_loop_end sample_playing (by decide)).2.2.2 (by decide)
  ⟨by decide, by decide, h1, h2.1, by decide, h3, h4⟩

/-- C20. In every reachable state both filenames are one of the two slots "RECORD1.RAW"
and "RECORD2.RAW"; in the modes `RECORD_INITIAL`, `RECORD_PLAY` and `RECORD_OVERDUB`
the playback filename and the record filename are different slots, so they are the
same slot only in `STOP` or `PLAY`, when no recording is in progress. -/
theorem reachable_role_names (s : SD_AUDIO_RECORDER) (h : Reachable s) :
    (s.m_play_back_filename = "RECORD1.RAW" ∨ s.m_play_back_filename = "RECORD2.RAW") ∧
    (s.m_record_filename = "RECORD1.RAW" ∨ s.m_record_filename = "RECORD2.RAW") ∧
    (s.m_mode = MODE.RECORD_INITIAL ∨ s.m_mode = MODE.RECORD_PLAY ∨
        s.m_mode = MODE.RECORD_OVERDUB →
      s.m_play_back_filename ≠ s.m_record_filename) ∧
    (s.m_play_back_filename = s.m_record_filename →
      s.m_mode = MODE.STOP ∨ s.m_mode = MODE.PLAY) := by
  obtain ⟨h1, h2, h3, -⟩ := reachable_roles_ok s h
  refine ⟨h1, h2, fun hm => h3 ((is_recording_iff s).mpr hm), ?_⟩
  intro heq
  cases hm : s.m_mode with
  | STOP => exact Or.inl rfl
  | PLAY => exact Or.inr rfl
  | RECORD_INITIAL => exact absurd heq (h3 ((is_recording_iff s).mpr (Or.inl hm)))
  | RECORD_PLAY => exact absurd heq (h3 ((is_recording_iff s).mpr (Or.inr (Or.inl hm))))
  | RECORD_OVERDUB => exact absurd heq (h3 ((is_recording_iff s).mpr (Or.inr (Or.inr hm))))

/-- Witness of C20: the state after `start_record()` and `stop_record()` from the
constructed sample recorder. -/
theorem reachable_role_names_witness :
    Reachable (stop_record (start_record sample_stopped)) ∧
    (stop_record (start_record sample_stopped)).m_mode = MODE.RECORD_PLAY ∧
    (stop_record (start_record sample_stopped)).m_play_back_filename = "RECORD2.RAW" ∧
    (stop_record (start_record sample_stopped)).m_play_back_filename
      ≠ (stop_record (start_record sample_stopped)).m_record_filename :=
  have hr : Reachable (stop_record (start_record sample_stopped)) :=
    Reachable.stop_record (Reachable.start_record (Reachable.init sample_card _))
  ⟨hr, by decide, by decide,
    (reachable_role_names (stop_record (start_record sample_stopped)) hr).2.2.1
      (Or.inr (Or.inl (by decide)))⟩

/-- C19 fails on the code: `start_record()` from the freshly constructed state changes
the record filename from "RECORD1.RAW" to "RECORD2.RAW". -/
theorem start_record_assigns_roles_counterexample :
    sample_stopped = SD_AUDIO_RECORDER.init sample_card [stale_block 0, stale_block 1] ∧
    sample_stopped.m_mode = MODE.STOP ∧
    sample_stopped.m_record_filename = "RECORD1.RAW" ∧
    (start_record sample_stopped).m_record_filename = "RECORD2.RAW" ∧
    (start_record sample_stopped).m_record_filename ≠ sample_stopped.m_record_filename := by
  decide

/-- C19 (as the code has it). The pair of filenames is kept by `start_record()` from
`RECORD_PLAY`, by `stop_record()` from `RECORD_OVERDUB`, by `set_read_position(t)` and
by every tick other than a tick in `RECORD_PLAY` or `RECORD_OVERDUB` whose playback
step reports the end of the loop. `start_record()` from `STOP` assigns the pair: the
playback file is "RECORD1.RAW" and the record file "RECORD2.RAW", whatever they were. -/
theorem roles_kept_by_commands (s : SD_AUDIO_RECORDER) (t : ℚ) :
    (s.m_mode = MODE.STOP →
      (start_record s).m_play_back_filename = "RECORD1.RAW" ∧
      (start_record s).m_record_filename = "RECORD2.RAW") ∧
    (s.m_mode = MODE.RECORD_PLAY →
      (start_record s).m_play_back_filename = s.m_play_back_filename ∧
      (start_record s).m_record_filename = s.m_record_filename) ∧
    (s.m_mode = MODE.RECORD_OVERDUB →
      (stop_record s).m_play_back_filename = s.m_play_back_filename ∧
      (stop_record s).m_record_filename = s.m_record_filename) ∧
    ((set_read_position s t).m_play_back_filename = s.m_play_back_filename ∧
      (set_read_position s t).m_record_filename = s.m_record_filename) ∧
    (¬ ((s.m_mode = MODE.RECORD_PLAY ∨ s.m_mode = MODE.RECORD_OVERDUB) ∧
          (update_playing s).1 = true) →
      (update s).m_play_back_filename = s.m_play_back_filename ∧
      (update s).m_record_filename = s.m_record_filename) := by
  refine ⟨?_, ?_, ?_, ?_, ?_⟩
  · intro h
    exact (start_record_from_stop s h).2
  · intro h
    rw [start_record_from_record_play s h]
    exact ⟨rfl, rfl⟩
  · intro h
    rw [stop_record_from_overdub s h]
    exact ⟨rfl, rfl⟩
  · obtain ⟨-, c2, c3, -⟩ := set_read_position_frame s t
    exact ⟨c2, c3⟩
  · intro hno
    cases hm : s.m_mode with
    | STOP =>
      rw [update_stop s hm]
      exact ⟨rfl, rfl⟩
    | PLAY =>
      obtain ⟨d1, d2, -, -⟩ := update_play_roles s hm
      exact ⟨d1, d2⟩
    | RECORD_INITIAL =>
      have hc := update_initial_control s hm
      exact ⟨hc.2.1, hc.2.2.1⟩
    | RECORD_PLAY =>
      have hfin : (update_playing s).1 = false := by
        cases hf : (update_playing s).1
        · rfl
        · exact absurd ⟨Or.inl hm, hf⟩ hno
      exact (update_record_roles s (Or.inl hm)).2.2.2 hfin
    | RECORD_OVERDUB =>
      have hfin : (update_playing s).1 = false := by
        cases hf : (update_playing s).1
        · rfl
        · exact absurd ⟨Or.inr hm, hf⟩ hno
      exact (update_record_roles s (Or.inr hm)).2.2.2 hfin

/-- Witness of the amended C19: `start_record()` from the constructed sample recorder,
`start_record()` at the start of the recorded loop, `stop_record()` in the overdub
sample, and the first tick of the recorded loop, which does not reach its end. -/
theorem roles_kept_by_commands_witness :
    ((start_record sample_stopped).m_play_back_filename = "RECORD1.RAW" ∧
      (start_record sample_stopped).m_record_filename = "RECORD2.RAW") ∧
    ((start_record sample_loop_start).m_play_back_filename
        = sample_loop_start.m_play_back_filename ∧
      (start_record sample_loop_start).m_record_filename
        = sample_loop_start.m_record_filename) ∧
    ((stop_record (sample_overdub 2 100)).m_play_back_filename
        = (sample_overdub 2 100).m_play_back_filename ∧
      (stop_record (sample_overdub 2 100)).m_record_filename
        = (sample_overdub 2 100).m_record_filename) ∧
    ((update sample_loop_start).m_play_back_filename = sample_loop_start.m_play_back_filename ∧
      (update sample_loop_start).m_record_filename = sample_loop_start.m_record_filename) :=
  ⟨(roles_kept_by_commands sample_stopped 1).1 (by decide),
   (roles_kept_by_commands sample_loop_start 1).2.1 (by decide),
   (roles_kept_by_commands (sample_overdub 2 100) 1).2.2.1 (by decide),
   (roles_kept_by_commands sample_loop_start 1).2.2.2.2 (by decide)⟩

/-! ## Record, play/record, overdub -/

/-- The playback step keeps the record handle. -/
theorem update_playing_record_handle (s : SD_AUDIO_RECORDER) :
    (update_playing s).2.m_recorded_audio_file = s.m_recorded_audio_file := by
  unfold update_playing
  cases hp : allocate s.pool with
  | none => rfl
  | some r =>
    obtain ⟨block0, pool1⟩ := r
    simp only []
    split <;> split <;> rfl

/-- The capture step keeps the record handle. -/
theorem queue_update_record_handle (s : SD_AUDIO_RECORDER) :
    (queue_update s).m_recorded_audio_file = s.m_recorded_audio_file := by
  have ha : (aquire_block_func s).2.m_recorded_audio_file = s.m_recorded_audio_file := by
    unfold aquire_block_func
    split
    · rfl
    · split
      · simp only [receive]
        split <;> rfl
      · rfl
  unfold queue_update
  simp only []
  split
  · exact ha
  · split
    · exact ha
    · exact ha

/-- The record step keeps the record handle. -/
theorem update_recording_record_handle (s : SD_AUDIO_RECORDER) :
    (update_recording s).m_recorded_audio_file = s.m_recorded_audio_file := by
  unfold update_recording
  split <;> rfl

/-- The record handle after `start_record()` from `STOP`: closed when the open failed,
otherwise a handle on the second slot. -/
theorem start_record_handle_name (s : SD_AUDIO_RECORDER) (hm : s.m_mode = MODE.STOP)
    (h : File) (hf : (start_record s).m_recorded_audio_file = some h) :
    h.name = RECORDING_FILENAME2 := by
  have hs : start_record s
      = { start_recording
            { s with m_play_back_filename := RECORDING_FILENAME1
                     m_record_filename := RECORDING_FILENAME2 }
          with m_mode := MODE.RECORD_INITIAL } := by
    simp only [start_record, hm]
  rw [hs] at hf
  have hname : ∀ (sd : SDClass) (name : String) (g : File),
      (SD_open_write sd name).2 = some g → g.name = name := by
    intro sd name g hg
    unfold SD_open_write at hg
    split at hg
    · split at hg
      · simp only [Option.some.injEq] at hg
        rw [← hg]
      · simp only [Option.some.injEq] at hg
        rw [← hg]
    · exact absurd hg (by simp)
  have hf2 : (start_recording
      { s with m_play_back_filename := RECORDING_FILENAME1
               m_record_filename := RECORDING_FILENAME2 }).m_recorded_audio_file = some h := hf
  unfold start_recording at hf2
  simp only [] at hf2
  split at hf2 <;> split at hf2 <;> exact hname _ _ h hf2

/-- Ticks without a loop-end, from a recording mode: the mode, the two filenames and
the record handle are the ones at the start. -/
theorem quiet_ticks_keep {s t : SD_AUDIO_RECORDER} (h : QuietTicks s t)
    (hm : s.m_mode = MODE.RECORD_INITIAL ∨ s.m_mode = MODE.RECORD_PLAY ∨
      s.m_mode = MODE.RECORD_OVERDUB) :
    t.m_mode = s.m_mode ∧
    t.m_play_back_filename = s.m_play_back_filename ∧
    t.m_record_filename = s.m_record_filename ∧
    t.m_recorded_audio_file = s.m_recorded_audio_file := by
  induction h with
  | refl => exact ⟨rfl, rfl, rfl, rfl⟩
  | @feed t b _ ih => exact ih
  | @tick t _ hno ih =>
    obtain ⟨i1, i2, i3, i4⟩ := ih
    rw [← i1] at hm
    rcases hm with hm | hm | hm
    · have hc := update_initial_control t hm
      have hu : update t = update_recording (queue_update t) := by
        unfold update
        simp only [hm]
      refine ⟨hc.1.trans i1, hc.2.1.trans i2, hc.2.2.1.trans i3, ?_⟩
      rw [hu, update_recording_record_handle, queue_update_record_handle]
      exact i4
    · have hfin : (update_playing t).1 = false := by
        cases hf : (update_playing t).1
        · rfl
        · exact absurd ⟨Or.inl hm, hf⟩ hno
      obtain ⟨e1, -, -, e4⟩ := update_record_roles t (Or.inl hm)
      obtain ⟨f1, f2⟩ := e4 hfin
      refine ⟨e1.trans i1, f1.trans i2, f2.trans i3, ?_⟩
      rw [update_record_eq t (Or.inl hm), hfin]
      simp only [Bool.false_eq_true, if_false]
      rw [update_recording_record_handle, queue_update_record_handle,
        update_playing_record_handle]
      exact i4
    · have hfin : (update_playing t).1 = false := by
        cases hf : (update_playing t).1
        · rfl
        · exact absurd ⟨Or.inr hm, hf⟩ hno
      obtain ⟨e1, -, -, e4⟩ := update_record_roles t (Or.inr hm)
      obtain ⟨f1, f2⟩ := e4 hfin
      refine ⟨e1.trans i1, f1.trans i2, f2.trans i3, ?_⟩
      rw [update_record_eq t (Or.inr hm), hfin]
      simp only [Bool.false_eq_true, if_false]
      rw [update_recording_record_handle, queue_update_record_handle,
        update_playing_record_handle]
      exact i4

/-- C13. From `STOP`: `start_record()`, the ticks of the first pass, `stop_record()`, ticks
of play/record, `start_record()`, ticks of overdub, `stop_record()`, where ticks and
arriving input blocks may come in any number between the commands as long as no tick
in play/record or overdub reports the end of the loop. The first pass is in
`RECORD_INITIAL` and records to "RECORD2.RAW" (its record filename, and the file of its
record handle); the sequence ends in `RECORD_PLAY` with that file as the playback file
and the other slot, "RECORD1.RAW", as the record file. -/
theorem record_overdub_cycle_roles (s a b c : SD_AUDIO_RECORDER) (h : s.m_mode = MODE.STOP)
    (h1 : QuietTicks (start_record s) a)
    (h2 : QuietTicks (stop_record a) b)
    (h3 : QuietTicks (start_record b) c) :
    a.m_mode = MODE.RECORD_INITIAL ∧
    a.m_record_filename = "RECORD2.RAW" ∧
    (∀ f, a.m_recorded_audio_file = some f → f.name = "RECORD2.RAW") ∧
    b.m_mode = MODE.RECORD_PLAY ∧
    c.m_mode = MODE.RECORD_OVERDUB ∧
    (stop_record c).m_mode = MODE.RECORD_PLAY ∧
    (stop_record c).m_play_back_filename = a.m_record_filename ∧
    (stop_record c).m_record_filename = a.m_play_back_filename ∧
    (stop_record c).m_play_back_filename = "RECORD2.RAW" ∧
    (stop_record c).m_record_filename = "RECORD1.RAW" := by
  obtain ⟨a1, a2, a3⟩ := start_record_from_stop s h
  obtain ⟨q1, q2, q3, q4⟩ := quiet_ticks_keep h1 (Or.inl a1)
  have am : a.m_mode = MODE.RECORD_INITIAL := q1.trans a1
  obtain ⟨b1, b2, b3⟩ := stop_record_from_initial a am
  obtain ⟨r1, r2, r3, -⟩ := quiet_ticks_keep h2 (Or.inr (Or.inl b1))
  have bm : b.m_mode = MODE.RECORD_PLAY := r1.trans b1
  have hc : start_record b = { b with m_mode := MODE.RECORD_OVERDUB } :=
    start_record_from_record_play b bm
  have cm0 : (start_record b).m_mode = MODE.RECORD_OVERDUB := by rw [hc]
  obtain ⟨t1, t2, t3, -⟩ := quiet_ticks_keep h3 (Or.inr (Or.inr cm0))
  have cm : c.m_mode = MODE.RECORD_OVERDUB := t1.trans cm0
  have cp : c.m_play_back_filename = a.m_record_filename := by
    rw [t2, hc]
    exact r2.trans b2
  have cr : c.m_record_filename = a.m_play_back_filename := by
    rw [t3, hc]
    exact r3.trans b3
  have an : a.m_record_filename = RECORDING_FILENAME2 := q3.trans a3
  have ap : a.m_play_back_filename = RECORDING_FILENAME1 := q2.trans a2
  rw [stop_record_from_overdub c cm]
  refine ⟨am, an, ?_, bm, cm, rfl, cp, cr, cp.trans an, cr.trans ap⟩
  intro f hf
  rw [q4] at hf
  exact start_record_handle_name s h f hf

/-- Witness of C13: from the constructed sample recorder, the first pass records two
blocks (512 bytes in "RECORD2.RAW"), play/record plays the first of them in one tick,
overdub mixes a live block into the second in one tick, and the last `stop_record()`
leaves `RECORD_PLAY` with "RECORD2.RAW" as the playback file. -/
theorem record_overdub_cycle_roles_witness :
    sample_stopped.m_mode = MODE.STOP ∧
    (SD_content sample_first_pass.SD "RECORD2.RAW").length = 512 ∧
    QuietTicks (start_record sample_stopped) sample_first_pass ∧
    QuietTicks (stop_record sample_first_pass) (update (stop_record sample_first_pass)) ∧
    QuietTicks (start_record (update (stop_record sample_first_pass))) sample_overdub_pass ∧
    (stop_record sample_overdub_pass).m_mode = MODE.RECORD_PLAY ∧
    (stop_record sample_overdub_pass).m_play_back_filename = "RECORD2.RAW" ∧
    (stop_record sample_overdub_pass).m_record_filename = "RECORD1.RAW" :=
  have q1 : QuietTicks (start_record sample_stopped) sample_first_pass :=
    QuietTicks.tick
      (QuietTicks.feed (tone_block 9 2)
        (QuietTicks.tick
          (QuietTicks.feed (tone_block 8 1) (QuietTicks.refl (start_record sample_stopped)))
          (by decide)))
      (by decide)
  have q2 : QuietTicks (stop_record sample_first_pass) (update (stop_record sample_first_pass)) :=
    QuietTicks.tick (QuietTicks.refl (stop_record sample_first_pass)) (by decide)
  have q3 : QuietTicks (start_record (update (stop_record sample_first_pass)))
      sample_overdub_pass :=
    QuietTicks.tick
      (QuietTicks.feed (tone_block 10 3)
        (QuietTicks.refl (start_record (update (stop_record sample_first_pass)))))
      (by decide)
  have hw := record_overdub_cycle_roles sample_stopped sample_first_pass
    (update (stop_record sample_first_pass)) sample_overdub_pass (by decide) q1 q2 q3
  ⟨by decide, by decide, q1, q2, q3, hw.2.2.2.2.2.1, hw.2.2.2.2.2.2.2.2.1,
    hw.2.2.2.2.2.2.2.2.2⟩

end Looper
